import Mathlib

/-!
# SN-GCJA5 particle sensor driver

A shallow embedding of `SparkFun_Particle_Sensor_SN-GCJA5_Arduino_Library.cpp`.

* The driver object becomes the structure `SFE_PARTICLE_SENSOR`; every member
  function becomes a function from the object to its result and the object
  afterwards.
* The I2C port `_i2cPort` points to an Arduino `TwoWire` object.  That library
  is not part of the repository; it is modelled by `TwoWire` below: a record of
  every call made so far, the bytes waiting to be read, and two functions that
  say what the bus answers given the calls made so far.
* Integers are natural numbers; conversions to `uint8_t`, `uint16_t` and
  `uint32_t` are written as `% 2^w`.
* The `float` that `getPM` returns is computed with the IEEE 754 rounding of
  the quotient to `double` and then to `float`; it is given as the rational
  number it stands for.
* A store outside `read_buf` is undefined in C++; the embedding then yields
  `none`.
-/

namespace SNGCJA5

/-! ## The I2C port -/

/-- One call of a `TwoWire` member function, with its arguments. -/
inductive WireCall where
  | beginTransmission (address : Nat)
  | write (data : Nat)
  | endTransmission (sendStop : Bool)
  | requestFrom (address quantity : Nat)
  | read
  deriving DecidableEq

/-- State of the I2C port. `status` and `incoming` are the behaviour of the bus
and of the device on it: given the calls made so far (most recent first),
`status` is the value the next `endTransmission` returns and `incoming` is the
bytes the next `requestFrom` makes available. `rx` holds the bytes received
and not read yet, `log` the calls made so far, most recent first. -/
structure TwoWire where
  status : List WireCall → Nat
  incoming : List WireCall → List Nat
  rx : List Nat
  log : List WireCall

namespace TwoWire

/-- Library call `Wire.beginTransmission(address)`. -/
def beginTransmission (w : TwoWire) (address : Nat) : TwoWire :=
  { w with log := WireCall.beginTransmission address :: w.log }

/-- Library call `Wire.write(data)`; the driver ignores its result. -/
def write (w : TwoWire) (data : Nat) : TwoWire :=
  { w with log := WireCall.write data :: w.log }

/-- Library call `Wire.endTransmission(sendStop)`: the status byte (0 is "acknowledged")
and the port afterwards. -/
def endTransmission (w : TwoWire) (sendStop : Bool) : Nat × TwoWire :=
  (w.status w.log, { w with log := WireCall.endTransmission sendStop :: w.log })

/-- Library call `Wire.requestFrom(address, quantity)`: the bus transfers the bytes the
device sends into the receive buffer; the driver ignores the result. -/
def requestFrom (w : TwoWire) (address quantity : Nat) : TwoWire :=
  { w with
    rx := w.incoming w.log
    log := WireCall.requestFrom address quantity :: w.log }

/-- Library call `Wire.available()`: the number of bytes waiting to be read. -/
def available (w : TwoWire) : Nat := w.rx.length

/-- Library call `Wire.read()`: the next byte waiting, or `-1` when there is none. -/
def read (w : TwoWire) : Int × TwoWire :=
  match w.rx with
  | [] => (-1, { w with log := WireCall.read :: w.log })
  | b :: rest => ((b : Int), { w with rx := rest, log := WireCall.read :: w.log })

/-- Number of transactions begun on the port so far. -/
def transactions (w : TwoWire) : Nat :=
  w.log.countP fun c => match c with
    | WireCall.beginTransmission _ => true
    | _ => false

end TwoWire

/-! ## Register map -/

/-- Modelled from the spec: the header that declares `SNGCJA5_PM1_0` is not
among the sources; section 6 of the specification puts PM1.0 at offset 0. -/
def SNGCJA5_PM1_0 : Nat := 0

/-- Modelled from the spec: the header that declares `SNGCJA5_PM2_5` is not
among the sources; section 6 of the specification puts PM2.5 at offset 4. -/
def SNGCJA5_PM2_5 : Nat := 4

/-- Modelled from the spec: the header that declares `SNGCJA5_PM10` is not
among the sources; section 6 of the specification puts PM10 at offset 8. -/
def SNGCJA5_PM10 : Nat := 8

/-- Register offsets the header declares and the specification does not give
a number for: the six particle counts and the state byte. The driver is
studied for every value of these constants. -/
structure RegisterMap where
  SNGCJA5_PCOUNT_0_5 : Nat
  SNGCJA5_PCOUNT_1_0 : Nat
  SNGCJA5_PCOUNT_2_5 : Nat
  SNGCJA5_PCOUNT_5_0 : Nat
  SNGCJA5_PCOUNT_7_5 : Nat
  SNGCJA5_PCOUNT_10 : Nat
  SNGCJA5_STATE : Nat

/-! ## The driver object -/

/-- Data members of `SFE_PARTICLE_SENSOR`. -/
structure SFE_PARTICLE_SENSOR where
  _i2cPort : TwoWire
  _deviceAddress : Nat
  read_buf : Fin 40 → Nat
  offset : Nat
  Pm1HasBeenReported : Bool
  Pm25HasBeenReported : Bool
  Pm10HasBeenReported : Bool
  Pc05HasBeenReported : Bool
  Pc1HasBeenReported : Bool
  Pc25HasBeenReported : Bool
  Pc5HasBeenReported : Bool
  Pc75HasBeenReported : Bool
  Pc10HasBeenReported : Bool
  StateHasBeenReported : Bool
  StSenHasBeenReported : Bool
  StPdHasBeenReported : Bool
  StLdHasBeenReported : Bool
  StFanHasBeenReported : Bool

/-- Conversion of an `int` to `uint8_t`. -/
def toUint8 (v : Int) : Nat := (v % 256).toNat

/-- The element `read_buf[i]`. Outside the buffer the C++ read is undefined;
the embedding yields 0 there. -/
def bufAt (s : SFE_PARTICLE_SENSOR) (i : Nat) : Nat :=
  if h : i < 40 then s.read_buf ⟨i, h⟩ else 0

/-- Every element of `read_buf` is a `uint8_t` value. -/
def BytesInRange (s : SFE_PARTICLE_SENSOR) : Prop :=
  ∀ i : Fin 40, s.read_buf i < 256

/-- The loop `while (_i2cPort->available()) read_buf[offset++] = _i2cPort->read();`
run for at most `fuel` iterations. `none` when a store falls outside
`read_buf`, or when the fuel is used up with bytes still waiting. -/
def receive : Nat → SFE_PARTICLE_SENSOR → Option SFE_PARTICLE_SENSOR
  | 0, s => if s._i2cPort.available ≠ 0 then none else some s
  | fuel + 1, s =>
    if s._i2cPort.available ≠ 0 then
      if h : s.offset < 40 then
        receive fuel
          { s with
            read_buf := Function.update s.read_buf ⟨s.offset, h⟩ (toUint8 s._i2cPort.read.1)
            offset := s.offset + 1
            _i2cPort := s._i2cPort.read.2 }
      else none
    else some s

/-- The fourteen assignments `...HasBeenReported = false` at the end of
`readMeasurement`. -/
def clearReported (s : SFE_PARTICLE_SENSOR) : SFE_PARTICLE_SENSOR :=
  { s with
    Pm1HasBeenReported := false
    Pm25HasBeenReported := false
    Pm10HasBeenReported := false
    Pc05HasBeenReported := false
    Pc1HasBeenReported := false
    Pc25HasBeenReported := false
    Pc5HasBeenReported := false
    Pc75HasBeenReported := false
    Pc10HasBeenReported := false
    StateHasBeenReported := false
    StSenHasBeenReported := false
    StPdHasBeenReported := false
    StLdHasBeenReported := false
    StFanHasBeenReported := false }

/-- The port after `beginTransmission(_deviceAddress); write(SNGCJA5_PM1_0)`,
the first two bus calls of `readMeasurement`. -/
def addressed (s : SFE_PARTICLE_SENSOR) : TwoWire :=
  (s._i2cPort.beginTransmission s._deviceAddress).write SNGCJA5_PM1_0

/-- Member function `SFE_PARTICLE_SENSOR::readMeasurement`: the returned boolean and the
object afterwards. -/
def readMeasurement (s : SFE_PARTICLE_SENSOR) : Option (Bool × SFE_PARTICLE_SENSOR) :=
  -- memset (read_buf, 0x0, sizeof(read_buf)); offset = 0;
  let s0 := { s with read_buf := fun _ => 0, offset := 0 }
  let e := (addressed s0).endTransmission false
  if e.1 ≠ 0 then
    some (false, { s0 with _i2cPort := e.2 })
  else
    let p := e.2.requestFrom s0._deviceAddress 40
    match receive p.available { s0 with _i2cPort := p } with
    | none => none
    | some s1 => some (true, clearReported s1)

/-- Member function `SFE_PARTICLE_SENSOR::readRegister8`. -/
def readRegister8 (s : SFE_PARTICLE_SENSOR) (addr : Nat) : Nat :=
  bufAt s addr

/-- Member function `SFE_PARTICLE_SENSOR::readRegister16`:
`(uint16_t)read_buf[addr+1] << 8 | read_buf[addr]`, returned as `uint16_t`. -/
def readRegister16 (s : SFE_PARTICLE_SENSOR) (addr : Nat) : Nat :=
  (((bufAt s (addr + 1) % 2 ^ 16) <<< 8) ||| bufAt s addr) % 2 ^ 16

/-- Member function `SFE_PARTICLE_SENSOR::readRegister32`: each byte is converted to
`uint32_t`, shifted within 32 bits, and the four are or-ed. -/
def readRegister32 (s : SFE_PARTICLE_SENSOR) (addr : Nat) : Nat :=
  (((bufAt s (addr + 3) % 2 ^ 32) <<< 24) % 2 ^ 32) |||
  (((bufAt s (addr + 2) % 2 ^ 32) <<< 16) % 2 ^ 32) |||
  (((bufAt s (addr + 1) % 2 ^ 32) <<< 8) % 2 ^ 32) |||
  (((bufAt s addr % 2 ^ 32) <<< 0) % 2 ^ 32)

/-- A finite binary floating point number that is not negative: it stands for
`mant * 2 ^ exp`. -/
structure BinaryFloat where
  mant : Nat
  exp : Int
  deriving DecidableEq

/-- The rational number a binary floating point number stands for. -/
def BinaryFloat.toRat (x : BinaryFloat) : ℚ := (x.mant : ℚ) * (2 : ℚ) ^ x.exp

/-- The number of binary digits of `n`, found by halving at most `fuel` times;
`bitLength n n` is the number of binary digits of `n`. -/
def bitLength : Nat → Nat → Nat
  | 0, _ => 0
  | fuel + 1, n => if n = 0 then 0 else bitLength fuel (n / 2) + 1

/-- Numerator and denominator, in natural numbers, of `n / (d * 2 ^ k)` for an
integer `k` of either sign. -/
def scaled (n d : Nat) (k : Int) : Nat × Nat :=
  if 0 ≤ k then (n, d * 2 ^ k.toNat) else (n * 2 ^ (-k).toNat, d)

/-- The integer nearest to `num / den`, and the even one of the two nearest
when `num / den` lies half way between them: the rounding "to nearest, ties to
even" that IEEE 754 arithmetic uses by default. -/
def nearestEven (num den : Nat) : Nat :=
  if 2 * (num % den) < den then num / den
  else if den < 2 * (num % den) then num / den + 1
  else if (num / den) % 2 = 0 then num / den else num / den + 1

/-- The quotient `n / d` rounded to a binary floating point number with a
significand of `p` binary digits, to nearest, ties to even. The exponent `k` is
the one for which `n / (d * 2 ^ k)` lies between `2 ^ (p - 1)` and `2 ^ p`;
that number is rounded to an integer. The range of the exponent is not
limited. -/
def roundQuot (p n d : Nat) : BinaryFloat :=
  if n = 0 then ⟨0, 0⟩
  else
    let k0 : Int := (bitLength n n : Int) - (bitLength d d : Int) - (p : Int) + 1
    let k : Int := if 2 ^ (p - 1) * (scaled n d k0).2 ≤ (scaled n d k0).1 then k0 else k0 - 1
    ⟨nearestEven (scaled n d k).1 (scaled n d k).2, k⟩

/-- Conversion of a binary floating point number to a significand of `p`
binary digits, to nearest, ties to even. -/
def roundFloat (p : Nat) (x : BinaryFloat) : BinaryFloat :=
  roundQuot p (scaled x.mant 1 (-x.exp)).1 (scaled x.mant 1 (-x.exp)).2

/-- The C++ expression `count / 1000.0` returned as a `float`, for `count` a
`uint32_t`. `count` becomes a `double` without rounding, the quotient is
rounded to a `double` (53 binary digits) and the return statement converts it
to a `float` (24 binary digits). `double` and `float` are the IEEE 754 binary64
and binary32 formats. The quotient of a count below 2^32 by 1000 is 0 or lies
between 2^-10 and 2^23, inside the normal range of both formats, so the limits
of the exponent play no part. -/
def quotientAsFloat (count : Nat) : BinaryFloat := roundFloat 24 (roundQuot 53 count 1000)

/-- Member function `SFE_PARTICLE_SENSOR::getPM`: `count / 1000.0` with
`count = readRegister32(pmRegister)`, returned as a `float`; the result is
given as the rational number that float stands for. -/
def getPM (s : SFE_PARTICLE_SENSOR) (pmRegister : Nat) : ℚ :=
  (quotientAsFloat (readRegister32 s pmRegister)).toRat

/-- The statement `if (flag == true) readMeasurement();` that opens every
getter: the object afterwards, the result of `readMeasurement` being
dropped. -/
def refreshIf (flag : Bool) (s : SFE_PARTICLE_SENSOR) : Option SFE_PARTICLE_SENSOR :=
  if flag = true then (readMeasurement s).map Prod.snd else some s

/-- Member function `SFE_PARTICLE_SENSOR::getPM1_0`. -/
def getPM1_0 (s : SFE_PARTICLE_SENSOR) : Option (ℚ × SFE_PARTICLE_SENSOR) :=
  (refreshIf s.Pm1HasBeenReported s).map fun s1 =>
    let s2 := { s1 with Pm1HasBeenReported := true }
    (getPM s2 SNGCJA5_PM1_0, s2)

/-- Member function `SFE_PARTICLE_SENSOR::getPM2_5`. -/
def getPM2_5 (s : SFE_PARTICLE_SENSOR) : Option (ℚ × SFE_PARTICLE_SENSOR) :=
  (refreshIf s.Pm25HasBeenReported s).map fun s1 =>
    let s2 := { s1 with Pm25HasBeenReported := true }
    (getPM s2 SNGCJA5_PM2_5, s2)

/-- Member function `SFE_PARTICLE_SENSOR::getPM10`. -/
def getPM10 (s : SFE_PARTICLE_SENSOR) : Option (ℚ × SFE_PARTICLE_SENSOR) :=
  (refreshIf s.Pm10HasBeenReported s).map fun s1 =>
    let s2 := { s1 with Pm10HasBeenReported := true }
    (getPM s2 SNGCJA5_PM10, s2)

/-- Member function `SFE_PARTICLE_SENSOR::getPC0_5`. -/
def getPC0_5 (R : RegisterMap) (s : SFE_PARTICLE_SENSOR) : Option (Nat × SFE_PARTICLE_SENSOR) :=
  (refreshIf s.Pc05HasBeenReported s).map fun s1 =>
    let s2 := { s1 with Pc05HasBeenReported := true }
    (readRegister16 s2 R.SNGCJA5_PCOUNT_0_5, s2)

/-- Member function `SFE_PARTICLE_SENSOR::getPC1_0`. -/
def getPC1_0 (R : RegisterMap) (s : SFE_PARTICLE_SENSOR) : Option (Nat × SFE_PARTICLE_SENSOR) :=
  (refreshIf s.Pc1HasBeenReported s).map fun s1 =>
    let s2 := { s1 with Pc1HasBeenReported := true }
    (readRegister16 s2 R.SNGCJA5_PCOUNT_1_0, s2)

/-- Member function `SFE_PARTICLE_SENSOR::getPC2_5`. -/
def getPC2_5 (R : RegisterMap) (s : SFE_PARTICLE_SENSOR) : Option (Nat × SFE_PARTICLE_SENSOR) :=
  (refreshIf s.Pc25HasBeenReported s).map fun s1 =>
    let s2 := { s1 with Pc25HasBeenReported := true }
    (readRegister16 s2 R.SNGCJA5_PCOUNT_2_5, s2)

/-- Member function `SFE_PARTICLE_SENSOR::getPC5_0`. -/
def getPC5_0 (R : RegisterMap) (s : SFE_PARTICLE_SENSOR) : Option (Nat × SFE_PARTICLE_SENSOR) :=
  (refreshIf s.Pc5HasBeenReported s).map fun s1 =>
    let s2 := { s1 with Pc5HasBeenReported := true }
    (readRegister16 s2 R.SNGCJA5_PCOUNT_5_0, s2)

/-- Member function `SFE_PARTICLE_SENSOR::getPC7_5`. -/
def getPC7_5 (R : RegisterMap) (s : SFE_PARTICLE_SENSOR) : Option (Nat × SFE_PARTICLE_SENSOR) :=
  (refreshIf s.Pc75HasBeenReported s).map fun s1 =>
    let s2 := { s1 with Pc75HasBeenReported := true }
    (readRegister16 s2 R.SNGCJA5_PCOUNT_7_5, s2)

/-- Member function `SFE_PARTICLE_SENSOR::getPC10`. -/
def getPC10 (R : RegisterMap) (s : SFE_PARTICLE_SENSOR) : Option (Nat × SFE_PARTICLE_SENSOR) :=
  (refreshIf s.Pc10HasBeenReported s).map fun s1 =>
    let s2 := { s1 with Pc10HasBeenReported := true }
    (readRegister16 s2 R.SNGCJA5_PCOUNT_10, s2)

/-- Member function `SFE_PARTICLE_SENSOR::getState`. -/
def getState (R : RegisterMap) (s : SFE_PARTICLE_SENSOR) : Option (Nat × SFE_PARTICLE_SENSOR) :=
  (refreshIf s.StateHasBeenReported s).map fun s1 =>
    let s2 := { s1 with StateHasBeenReported := true }
    (readRegister8 s2 R.SNGCJA5_STATE, s2)

/-- Member function `SFE_PARTICLE_SENSOR::getStatusSensors`; the result is a `uint8_t`. -/
def getStatusSensors (R : RegisterMap) (s : SFE_PARTICLE_SENSOR) :
    Option (Nat × SFE_PARTICLE_SENSOR) :=
  (refreshIf s.StSenHasBeenReported s).map fun s1 =>
    let s2 := { s1 with StSenHasBeenReported := true }
    (((readRegister8 s2 R.SNGCJA5_STATE >>> 6) &&& 0b11) % 2 ^ 8, s2)

/-- Member function `SFE_PARTICLE_SENSOR::getStatusPD`; the result is a `uint8_t`. -/
def getStatusPD (R : RegisterMap) (s : SFE_PARTICLE_SENSOR) :
    Option (Nat × SFE_PARTICLE_SENSOR) :=
  (refreshIf s.StPdHasBeenReported s).map fun s1 =>
    let s2 := { s1 with StPdHasBeenReported := true }
    (((readRegister8 s2 R.SNGCJA5_STATE >>> 4) &&& 0b11) % 2 ^ 8, s2)

/-- Member function `SFE_PARTICLE_SENSOR::getStatusLD`; the result is a `uint8_t`. -/
def getStatusLD (R : RegisterMap) (s : SFE_PARTICLE_SENSOR) :
    Option (Nat × SFE_PARTICLE_SENSOR) :=
  (refreshIf s.StLdHasBeenReported s).map fun s1 =>
    let s2 := { s1 with StLdHasBeenReported := true }
    (((readRegister8 s2 R.SNGCJA5_STATE >>> 2) &&& 0b11) % 2 ^ 8, s2)

/-- Member function `SFE_PARTICLE_SENSOR::getStatusFan`; the result is a `uint8_t`. -/
def getStatusFan (R : RegisterMap) (s : SFE_PARTICLE_SENSOR) :
    Option (Nat × SFE_PARTICLE_SENSOR) :=
  (refreshIf s.StFanHasBeenReported s).map fun s1 =>
    let s2 := { s1 with StFanHasBeenReported := true }
    (((readRegister8 s2 R.SNGCJA5_STATE >>> 0) &&& 0b11) % 2 ^ 8, s2)

/-- Member function `SFE_PARTICLE_SENSOR::isConnected`. -/
def isConnected (s : SFE_PARTICLE_SENSOR) : Bool × SFE_PARTICLE_SENSOR :=
  let e := (s._i2cPort.beginTransmission s._deviceAddress).endTransmission true
  if e.1 ≠ 0 then (false, { s with _i2cPort := e.2 })
  else (true, { s with _i2cPort := e.2 })

/-- Member function `SFE_PARTICLE_SENSOR::begin`. -/
def begin (s : SFE_PARTICLE_SENSOR) (wirePort : TwoWire) : Bool × SFE_PARTICLE_SENSOR :=
  isConnected { s with _i2cPort := wirePort }

/-- Member function `SFE_PARTICLE_SENSOR::TestReg`: the returned boolean, the byte `*r`
afterwards and the object afterwards. -/
def TestReg (s : SFE_PARTICLE_SENSOR) (addr : Nat) (r : Nat) :
    Bool × Nat × SFE_PARTICLE_SENSOR :=
  let e := ((s._i2cPort.beginTransmission s._deviceAddress).write addr).endTransmission false
  if e.1 ≠ 0 then (false, r, { s with _i2cPort := e.2 })
  else
    let p := e.2.requestFrom s._deviceAddress 1
    if p.available ≠ 0 then (true, toUint8 p.read.1, { s with _i2cPort := p.read.2 })
    else (false, r, { s with _i2cPort := p })

/-! ## The fourteen readings -/

/-- The fourteen logical readings, one per getter and per `...HasBeenReported`
member. -/
inductive Field where
  | PM1_0 | PM2_5 | PM10
  | PC0_5 | PC1_0 | PC2_5 | PC5_0 | PC7_5 | PC10
  | State | StatusSensors | StatusPD | StatusLD | StatusFan
  deriving DecidableEq

/-- A value returned by a getter: a mass density (`float`), a particle count
(`uint16_t`) or a state value (`uint8_t`). -/
inductive Reading where
  | density (q : ℚ)
  | count (n : Nat)
  | byte (n : Nat)
  deriving DecidableEq

namespace Field

/-- All fourteen readings, in the order of the header. -/
def all : List Field :=
  [PM1_0, PM2_5, PM10, PC0_5, PC1_0, PC2_5, PC5_0, PC7_5, PC10,
   State, StatusSensors, StatusPD, StatusLD, StatusFan]

/-- The `...HasBeenReported` member that belongs to a reading. -/
def reported : Field → SFE_PARTICLE_SENSOR → Bool
  | PM1_0, s => s.Pm1HasBeenReported
  | PM2_5, s => s.Pm25HasBeenReported
  | PM10, s => s.Pm10HasBeenReported
  | PC0_5, s => s.Pc05HasBeenReported
  | PC1_0, s => s.Pc1HasBeenReported
  | PC2_5, s => s.Pc25HasBeenReported
  | PC5_0, s => s.Pc5HasBeenReported
  | PC7_5, s => s.Pc75HasBeenReported
  | PC10, s => s.Pc10HasBeenReported
  | State, s => s.StateHasBeenReported
  | StatusSensors, s => s.StSenHasBeenReported
  | StatusPD, s => s.StPdHasBeenReported
  | StatusLD, s => s.StLdHasBeenReported
  | StatusFan, s => s.StFanHasBeenReported

/-- The assignment `...HasBeenReported = true` of a reading's getter. -/
def mark : Field → SFE_PARTICLE_SENSOR → SFE_PARTICLE_SENSOR
  | PM1_0, s => { s with Pm1HasBeenReported := true }
  | PM2_5, s => { s with Pm25HasBeenReported := true }
  | PM10, s => { s with Pm10HasBeenReported := true }
  | PC0_5, s => { s with Pc05HasBeenReported := true }
  | PC1_0, s => { s with Pc1HasBeenReported := true }
  | PC2_5, s => { s with Pc25HasBeenReported := true }
  | PC5_0, s => { s with Pc5HasBeenReported := true }
  | PC7_5, s => { s with Pc75HasBeenReported := true }
  | PC10, s => { s with Pc10HasBeenReported := true }
  | State, s => { s with StateHasBeenReported := true }
  | StatusSensors, s => { s with StSenHasBeenReported := true }
  | StatusPD, s => { s with StPdHasBeenReported := true }
  | StatusLD, s => { s with StLdHasBeenReported := true }
  | StatusFan, s => { s with StFanHasBeenReported := true }

/-- The expression a reading's getter returns, evaluated on the object. -/
def decode (R : RegisterMap) : Field → SFE_PARTICLE_SENSOR → Reading
  | PM1_0, s => Reading.density (getPM s SNGCJA5_PM1_0)
  | PM2_5, s => Reading.density (getPM s SNGCJA5_PM2_5)
  | PM10, s => Reading.density (getPM s SNGCJA5_PM10)
  | PC0_5, s => Reading.count (readRegister16 s R.SNGCJA5_PCOUNT_0_5)
  | PC1_0, s => Reading.count (readRegister16 s R.SNGCJA5_PCOUNT_1_0)
  | PC2_5, s => Reading.count (readRegister16 s R.SNGCJA5_PCOUNT_2_5)
  | PC5_0, s => Reading.count (readRegister16 s R.SNGCJA5_PCOUNT_5_0)
  | PC7_5, s => Reading.count (readRegister16 s R.SNGCJA5_PCOUNT_7_5)
  | PC10, s => Reading.count (readRegister16 s R.SNGCJA5_PCOUNT_10)
  | State, s => Reading.byte (readRegister8 s R.SNGCJA5_STATE)
  | StatusSensors, s => Reading.byte (((readRegister8 s R.SNGCJA5_STATE >>> 6) &&& 0b11) % 2 ^ 8)
  | StatusPD, s => Reading.byte (((readRegister8 s R.SNGCJA5_STATE >>> 4) &&& 0b11) % 2 ^ 8)
  | StatusLD, s => Reading.byte (((readRegister8 s R.SNGCJA5_STATE >>> 2) &&& 0b11) % 2 ^ 8)
  | StatusFan, s => Reading.byte (((readRegister8 s R.SNGCJA5_STATE >>> 0) &&& 0b11) % 2 ^ 8)

/-- A call of the getter of a reading: the value returned and the object
afterwards. -/
def get (R : RegisterMap) : Field → SFE_PARTICLE_SENSOR → Option (Reading × SFE_PARTICLE_SENSOR)
  | PM1_0, s => (getPM1_0 s).map fun r => (Reading.density r.1, r.2)
  | PM2_5, s => (getPM2_5 s).map fun r => (Reading.density r.1, r.2)
  | PM10, s => (getPM10 s).map fun r => (Reading.density r.1, r.2)
  | PC0_5, s => (getPC0_5 R s).map fun r => (Reading.count r.1, r.2)
  | PC1_0, s => (getPC1_0 R s).map fun r => (Reading.count r.1, r.2)
  | PC2_5, s => (getPC2_5 R s).map fun r => (Reading.count r.1, r.2)
  | PC5_0, s => (getPC5_0 R s).map fun r => (Reading.count r.1, r.2)
  | PC7_5, s => (getPC7_5 R s).map fun r => (Reading.count r.1, r.2)
  | PC10, s => (getPC10 R s).map fun r => (Reading.count r.1, r.2)
  | State, s => (getState R s).map fun r => (Reading.byte r.1, r.2)
  | StatusSensors, s => (getStatusSensors R s).map fun r => (Reading.byte r.1, r.2)
  | StatusPD, s => (getStatusPD R s).map fun r => (Reading.byte r.1, r.2)
  | StatusLD, s => (getStatusLD R s).map fun r => (Reading.byte r.1, r.2)
  | StatusFan, s => (getStatusFan R s).map fun r => (Reading.byte r.1, r.2)

end Field

/-- The getters of the listed readings called one after the other: the values
returned, in order, and the object afterwards. -/
def getAll (R : RegisterMap) : List Field → SFE_PARTICLE_SENSOR →
    Option (List Reading × SFE_PARTICLE_SENSOR)
  | [], s => some ([], s)
  | f :: fs, s =>
    match f.get R s with
    | none => none
    | some (v, s1) =>
      match getAll R fs s1 with
      | none => none
      | some (vs, s2) => some (v :: vs, s2)

/-- The status the bus returns to the register write of a `readMeasurement`
called on `s`. -/
def writeStatus (s : SFE_PARTICLE_SENSOR) : Nat :=
  ((addressed s).endTransmission false).1

/-- The bytes the bus makes available to the 40 byte read of a
`readMeasurement` called on `s`. -/
def delivered (s : SFE_PARTICLE_SENSOR) : List Nat :=
  (((addressed s).endTransmission false).2.requestFrom s._deviceAddress 40).rx

/-- All fourteen `...HasBeenReported` members have the value `b`. -/
def AllReported (b : Bool) (s : SFE_PARTICLE_SENSOR) : Prop :=
  ∀ f : Field, f.reported s = b

/-- The number of `readMeasurement` calls between two states of the object,
counted as the bus transactions begun in between. -/
def refreshes (before after : SFE_PARTICLE_SENSOR) : Nat :=
  after._i2cPort.transactions - before._i2cPort.transactions

/-! ## Concrete ports and objects -/

/-- A port on a bus where every write is acknowledged (status 0) and every
read request makes the bytes `bytes` available. -/
def ackWire (bytes : List Nat) : TwoWire :=
  { status := fun _ => 0, incoming := fun _ => bytes, rx := [], log := [] }

/-- A port on a bus where no device answers: every `endTransmission` returns 2
(address not acknowledged) and no byte ever arrives. -/
def nackWire : TwoWire :=
  { status := fun _ => 2, incoming := fun _ => [], rx := [], log := [] }

/-- A register map with the particle counts right behind the mass densities
and the state byte behind them. -/
def packedMap : RegisterMap :=
  { SNGCJA5_PCOUNT_0_5 := 12, SNGCJA5_PCOUNT_1_0 := 14, SNGCJA5_PCOUNT_2_5 := 16,
    SNGCJA5_PCOUNT_5_0 := 18, SNGCJA5_PCOUNT_7_5 := 20, SNGCJA5_PCOUNT_10 := 22,
    SNGCJA5_STATE := 24 }

/-- An object on port `w` whose buffer holds `buf` and whose fourteen
`...HasBeenReported` members all have the value `b`. -/
def sensorWith (w : TwoWire) (buf : Fin 40 → Nat) (b : Bool) : SFE_PARTICLE_SENSOR :=
  { _i2cPort := w, _deviceAddress := 0x33, read_buf := buf, offset := 0,
    Pm1HasBeenReported := b, Pm25HasBeenReported := b, Pm10HasBeenReported := b,
    Pc05HasBeenReported := b, Pc1HasBeenReported := b, Pc25HasBeenReported := b,
    Pc5HasBeenReported := b, Pc75HasBeenReported := b, Pc10HasBeenReported := b,
    StateHasBeenReported := b, StSenHasBeenReported := b, StPdHasBeenReported := b,
    StLdHasBeenReported := b, StFanHasBeenReported := b }

/-- The buffer that holds the listed bytes from offset 0 on and 0 behind
them. -/
def bufOf (bytes : List Nat) : Fin 40 → Nat := fun i => bytes.getD i.val 0

/-- A port on a bus whose device misses the first transaction and answers from
then on: `endTransmission` returns 2 while fewer than three calls have been
made and 0 afterwards; every read request makes the bytes `bytes` available. -/
def lateWire (bytes : List Nat) : TwoWire :=
  { status := fun h => if h.length < 3 then 2 else 0,
    incoming := fun _ => bytes, rx := [], log := [] }

/-- The object a `readMeasurement` called on `s` leaves when the register write
is not acknowledged: the buffer is cleared and the port has seen the write. -/
def afterNack (s : SFE_PARTICLE_SENSOR) : SFE_PARTICLE_SENSOR :=
  { s with
    read_buf := fun _ => 0
    offset := 0
    _i2cPort := ((addressed s).endTransmission false).2 }

/-- The object inside a `readMeasurement` called on `s` right after
`requestFrom(_deviceAddress, 40)`, the register write being acknowledged. -/
def afterRequest (s : SFE_PARTICLE_SENSOR) : SFE_PARTICLE_SENSOR :=
  { s with
    read_buf := fun _ => 0
    offset := 0
    _i2cPort := ((addressed s).endTransmission false).2.requestFrom s._deviceAddress 40 }

/-- The object once the receive loop has stored every waiting byte, in closed
form: the waiting bytes lie at `offset`, `offset + 1`, ... and the port has
seen one `read` per byte. -/
def drained (s : SFE_PARTICLE_SENSOR) : SFE_PARTICLE_SENSOR :=
  { s with
    read_buf := fun i =>
      if s.offset ≤ i.val ∧ i.val < s.offset + s._i2cPort.rx.length then
        s._i2cPort.rx.getD (i.val - s.offset) 0 % 256
      else s.read_buf i
    offset := s.offset + s._i2cPort.rx.length
    _i2cPort :=
      { s._i2cPort with
        rx := []
        log := List.replicate s._i2cPort.rx.length WireCall.read ++ s._i2cPort.log } }

/-- The value a getter returns from a buffer of zeros: 0.0 for a mass
density, 0 for a particle count and for a state value. -/
def Field.zero : Field → Reading
  | Field.PM1_0 | Field.PM2_5 | Field.PM10 => Reading.density 0
  | Field.PC0_5 | Field.PC1_0 | Field.PC2_5 | Field.PC5_0 | Field.PC7_5 | Field.PC10 =>
    Reading.count 0
  | Field.State | Field.StatusSensors | Field.StatusPD | Field.StatusLD | Field.StatusFan =>
    Reading.byte 0

/-- The indices `offset` at which the loop
`while (_i2cPort->available()) read_buf[offset++] = _i2cPort->read();` stores,
in order, for at most `fuel` iterations; no bound on the index is checked. -/
def storeIndices : Nat → SFE_PARTICLE_SENSOR → List Nat
  | 0, _ => []
  | fuel + 1, s =>
    if s._i2cPort.available ≠ 0 then
      s.offset :: storeIndices fuel
        { s with offset := s.offset + 1, _i2cPort := s._i2cPort.read.2 }
    else []

/-- The number of `Wire.read()` calls the port has seen. -/
def TwoWire.reads (w : TwoWire) : Nat := w.log.count WireCall.read

/-- The status the bus returns to the zero-length probe of an `isConnected`
called on `s`. -/
def probeStatus (s : SFE_PARTICLE_SENSOR) : Nat :=
  ((s._i2cPort.beginTransmission s._deviceAddress).endTransmission true).1

/-- The status the bus returns to the one-byte address write of a
`TestReg(addr, r)` called on `s`. -/
def testStatus (s : SFE_PARTICLE_SENSOR) (addr : Nat) : Nat :=
  (((s._i2cPort.beginTransmission s._deviceAddress).write addr).endTransmission false).1

/-- The bytes the bus makes available to the one-byte read request of a
`TestReg(addr, r)` called on `s`. -/
def testData (s : SFE_PARTICLE_SENSOR) (addr : Nat) : List Nat :=
  ((((s._i2cPort.beginTransmission s._deviceAddress).write addr).endTransmission false).2.requestFrom
    s._deviceAddress 1).rx

/-! ## The receive loop -/

theorem toUint8_natCast (b : Nat) : toUint8 (b : Int) = b % 256 := by
  unfold toUint8
  omega

theorem drained_of_rx_nil (s : SFE_PARTICLE_SENSOR) (h : s._i2cPort.rx = []) :
    drained s = s := by
  obtain ⟨⟨st, inc, rx, lg⟩, da, buf, off⟩ := s
  dsimp only at h
  subst h
  simp only [drained, List.length_nil, List.replicate_zero, List.nil_append, Nat.add_zero]
  congr 1
  funext i
  have h3 : ¬ (off ≤ i.val ∧ i.val < off) := by omega
  rw [if_neg h3]

theorem receive_eq_drained (fuel : Nat) : ∀ s : SFE_PARTICLE_SENSOR,
    s._i2cPort.rx.length ≤ fuel → s.offset + s._i2cPort.rx.length ≤ 40 →
    receive fuel s = some (drained s) := by
  induction fuel with
  | zero =>
    intro s hf _
    have hrx : s._i2cPort.rx = [] := List.eq_nil_of_length_eq_zero (Nat.le_zero.mp hf)
    rw [drained_of_rx_nil s hrx]
    simp [receive, TwoWire.available, hrx]
  | succ n ih =>
    intro s hf hb
    obtain ⟨⟨st, inc, rx, lg⟩, da, buf, off⟩ := s
    dsimp only at hf hb
    cases rx with
    | nil =>
      rw [drained_of_rx_nil _ rfl]
      simp [receive, TwoWire.available]
    | cons b rest =>
      simp only [List.length_cons] at hf hb
      have hoff : off < 40 := by omega
      simp only [receive, TwoWire.available, List.length_cons, ne_eq, Nat.add_one_ne_zero,
        not_false_eq_true, if_true, hoff, dite_true, TwoWire.read]
      rw [ih _ (by dsimp only; omega) (by dsimp only; omega)]
      have hbuf : (fun i : Fin 40 =>
          if off + 1 ≤ i.val ∧ i.val < off + 1 + rest.length then
            rest.getD (i.val - (off + 1)) 0 % 256
          else Function.update buf ⟨off, hoff⟩ (toUint8 (b : Int)) i) =
          fun i : Fin 40 =>
            if off ≤ i.val ∧ i.val < off + (rest.length + 1) then
              (b :: rest).getD (i.val - off) 0 % 256
            else buf i := by
        funext i
        by_cases h1 : i.val = off
        · have hi : i = ⟨off, hoff⟩ := Fin.ext h1
          subst hi
          have h2 : ¬ (off + 1 ≤ off ∧ off < off + 1 + rest.length) := by omega
          have h3 : off ≤ off ∧ off < off + (rest.length + 1) := by omega
          rw [if_neg h2, if_pos h3, Function.update_same, Nat.sub_self, List.getD_cons_zero,
            toUint8_natCast]
        · have hne : i ≠ ⟨off, hoff⟩ := fun h => h1 (by rw [h])
          rw [Function.update_noteq hne]
          by_cases h2 : off + 1 ≤ i.val ∧ i.val < off + 1 + rest.length
          · have h3 : off ≤ i.val ∧ i.val < off + (rest.length + 1) := by omega
            have h4 : i.val - off = (i.val - (off + 1)) + 1 := by omega
            rw [if_pos h2, if_pos h3, h4, List.getD_cons_succ]
          · have h3 : ¬ (off ≤ i.val ∧ i.val < off + (rest.length + 1)) := by omega
            rw [if_neg h2, if_neg h3]
      have hlog : List.replicate rest.length WireCall.read ++ WireCall.read :: lg =
          List.replicate (rest.length + 1) WireCall.read ++ lg := by
        rw [List.replicate_succ', List.append_assoc]
        rfl
      have hoffs : off + 1 + rest.length = off + (rest.length + 1) := by omega
      simp only [drained, List.length_cons]
      rw [hbuf, hlog, hoffs]

theorem receive_eq_none (fuel : Nat) : ∀ s : SFE_PARTICLE_SENSOR,
    s._i2cPort.rx.length ≤ fuel → s.offset ≤ 40 → 40 < s.offset + s._i2cPort.rx.length →
    receive fuel s = none := by
  induction fuel with
  | zero =>
    intro s hf _ hb
    omega
  | succ n ih =>
    intro s hf ho hb
    obtain ⟨⟨st, inc, rx, lg⟩, da, buf, off⟩ := s
    dsimp only at hf ho hb
    cases rx with
    | nil =>
      simp only [List.length_nil] at hb
      omega
    | cons b rest =>
      simp only [List.length_cons] at hf hb
      by_cases hoff : off < 40
      · simp only [receive, TwoWire.available, List.length_cons, ne_eq, Nat.add_one_ne_zero,
          not_false_eq_true, if_true, hoff, dite_true, TwoWire.read]
        exact ih _ (by dsimp only; omega) (by dsimp only; omega) (by dsimp only; omega)
      · simp [receive, TwoWire.available, hoff]

/-! ## `readMeasurement` -/

theorem readMeasurement_nack (s : SFE_PARTICLE_SENSOR) (h : writeStatus s ≠ 0) :
    readMeasurement s = some (false, afterNack s) := by
  unfold writeStatus at h
  unfold readMeasurement
  simp only [addressed] at h ⊢
  rw [if_pos h]
  rfl

theorem readMeasurement_ack (s : SFE_PARTICLE_SENSOR) (h : writeStatus s = 0)
    (hlen : (delivered s).length ≤ 40) :
    readMeasurement s = some (true, clearReported (drained (afterRequest s))) := by
  unfold writeStatus at h
  unfold delivered at hlen
  unfold readMeasurement
  simp only [addressed] at h hlen ⊢
  rw [if_neg (not_not.mpr h)]
  have hd := receive_eq_drained (delivered s).length (afterRequest s) (le_refl _)
    (by simpa [afterRequest, delivered, addressed] using hlen)
  simp only [afterRequest, delivered, addressed] at hd
  simp only [TwoWire.available, afterRequest, addressed]
  rw [hd]

theorem readMeasurement_fault (s : SFE_PARTICLE_SENSOR) (h : writeStatus s = 0)
    (hlen : 40 < (delivered s).length) :
    readMeasurement s = none := by
  unfold writeStatus at h
  unfold delivered at hlen
  unfold readMeasurement
  simp only [addressed] at h hlen ⊢
  rw [if_neg (not_not.mpr h)]
  have hd := receive_eq_none (delivered s).length (afterRequest s) (le_refl _)
    (by simp [afterRequest])
    (by simpa [afterRequest, delivered, addressed] using hlen)
  simp only [afterRequest, delivered, addressed] at hd
  simp only [TwoWire.available, afterRequest, addressed]
  rw [hd]

theorem transactions_afterNack (s : SFE_PARTICLE_SENSOR) :
    (afterNack s)._i2cPort.transactions = s._i2cPort.transactions + 1 := by
  simp [afterNack, addressed, TwoWire.endTransmission, TwoWire.write,
    TwoWire.beginTransmission, TwoWire.transactions]

theorem transactions_drained (s : SFE_PARTICLE_SENSOR) :
    (drained s)._i2cPort.transactions = s._i2cPort.transactions := by
  simp [drained, TwoWire.transactions, List.countP_append, List.countP_replicate]

theorem transactions_afterRequest (s : SFE_PARTICLE_SENSOR) :
    (afterRequest s)._i2cPort.transactions = s._i2cPort.transactions + 1 := by
  simp [afterRequest, addressed, TwoWire.endTransmission, TwoWire.write,
    TwoWire.beginTransmission, TwoWire.requestFrom, TwoWire.transactions]

theorem transactions_readMeasurement (s s1 : SFE_PARTICLE_SENSOR) (r : Bool)
    (h : readMeasurement s = some (r, s1)) :
    s1._i2cPort.transactions = s._i2cPort.transactions + 1 := by
  by_cases hs : writeStatus s = 0
  · by_cases hl : (delivered s).length ≤ 40
    · rw [readMeasurement_ack s hs hl] at h
      simp only [Option.some.injEq, Prod.mk.injEq] at h
      rw [← h.2]
      show (drained (afterRequest s))._i2cPort.transactions = _
      rw [transactions_drained, transactions_afterRequest]
    · rw [readMeasurement_fault s hs (by omega)] at h
      exact absurd h (by simp)
  · rw [readMeasurement_nack s hs] at h
    simp only [Option.some.injEq, Prod.mk.injEq] at h
    rw [← h.2, transactions_afterNack]

/-! ## The getters, uniformly -/

theorem Field.get_eq (R : RegisterMap) (f : Field) (s : SFE_PARTICLE_SENSOR) :
    f.get R s =
      (refreshIf (f.reported s) s).map fun s1 => (f.decode R (f.mark s1), f.mark s1) := by
  cases f <;>
    simp only [Field.get, Field.reported, Field.decode, Field.mark, getPM1_0, getPM2_5, getPM10,
      getPC0_5, getPC1_0, getPC2_5, getPC5_0, getPC7_5, getPC10, getState, getStatusSensors,
      getStatusPD, getStatusLD, getStatusFan, Option.map_map] <;> rfl

theorem Field.read_buf_mark (f : Field) (s : SFE_PARTICLE_SENSOR) :
    (f.mark s).read_buf = s.read_buf := by
  cases f <;> rfl

theorem Field.i2cPort_mark (f : Field) (s : SFE_PARTICLE_SENSOR) :
    (f.mark s)._i2cPort = s._i2cPort := by
  cases f <;> rfl

theorem Field.deviceAddress_mark (f : Field) (s : SFE_PARTICLE_SENSOR) :
    (f.mark s)._deviceAddress = s._deviceAddress := by
  cases f <;> rfl

theorem Field.reported_mark_self (f : Field) (s : SFE_PARTICLE_SENSOR) :
    f.reported (f.mark s) = true := by
  cases f <;> rfl

theorem Field.reported_mark_of_ne (f g : Field) (s : SFE_PARTICLE_SENSOR) (h : g ≠ f) :
    g.reported (f.mark s) = g.reported s := by
  cases f <;> cases g <;> first | rfl | exact absurd rfl h

theorem bufAt_congr (s s1 : SFE_PARTICLE_SENSOR) (h : s1.read_buf = s.read_buf) (i : Nat) :
    bufAt s1 i = bufAt s i := by
  unfold bufAt
  rw [h]

theorem Field.decode_congr (R : RegisterMap) (f : Field) (s s1 : SFE_PARTICLE_SENSOR)
    (h : s1.read_buf = s.read_buf) : f.decode R s1 = f.decode R s := by
  cases f <;>
    simp only [Field.decode, getPM, readRegister32, readRegister16, readRegister8,
      bufAt_congr s s1 h]

theorem Field.decode_mark (R : RegisterMap) (f g : Field) (s : SFE_PARTICLE_SENSOR) :
    f.decode R (g.mark s) = f.decode R s :=
  Field.decode_congr R f s (g.mark s) (Field.read_buf_mark g s)

theorem Field.get_of_not_reported (R : RegisterMap) (f : Field) (s : SFE_PARTICLE_SENSOR)
    (h : f.reported s = false) : f.get R s = some (f.decode R s, f.mark s) := by
  rw [Field.get_eq, h]
  simp [refreshIf, Field.decode_mark]

theorem Field.get_of_reported (R : RegisterMap) (f : Field) (s : SFE_PARTICLE_SENSOR)
    (h : f.reported s = true) :
    f.get R s = (readMeasurement s).map fun r => (f.decode R r.2, f.mark r.2) := by
  rw [Field.get_eq, h]
  simp [refreshIf, Field.decode_mark, Option.map_map, Function.comp_def]

theorem Field.refreshes_get (R : RegisterMap) (f : Field) (s s1 : SFE_PARTICLE_SENSOR)
    (v : Reading) (h : f.get R s = some (v, s1)) :
    refreshes s s1 = if f.reported s = true then 1 else 0 := by
  unfold refreshes
  cases hf : f.reported s with
  | false =>
    rw [Field.get_of_not_reported R f s hf] at h
    simp only [Option.some.injEq, Prod.mk.injEq] at h
    rw [← h.2, Field.i2cPort_mark]
    simp
  | true =>
    rw [Field.get_of_reported R f s hf] at h
    cases hr : readMeasurement s with
    | none => rw [hr] at h; exact absurd h (by simp)
    | some r =>
      obtain ⟨b, s2⟩ := r
      rw [hr] at h
      simp only [Option.map_some', Option.some.injEq, Prod.mk.injEq] at h
      rw [← h.2, Field.i2cPort_mark, transactions_readMeasurement s s2 b hr]
      simp

theorem readMeasurement_isSome (s : SFE_PARTICLE_SENSOR)
    (h : writeStatus s ≠ 0 ∨ (delivered s).length ≤ 40) :
    ∃ r s1, readMeasurement s = some (r, s1) := by
  by_cases hs : writeStatus s = 0
  · rcases h with h | h
    · exact absurd hs h
    · exact ⟨_, _, readMeasurement_ack s hs h⟩
  · exact ⟨_, _, readMeasurement_nack s hs⟩

/-- C1: each of the fourteen getters, in every state and for every answer of
the bus. With its own flag set on entry the getter is one `readMeasurement`
followed by setting the flag and decoding; with the flag clear it leaves the
port untouched and only sets the flag. It returns whenever no store leaves the
buffer, the number of `readMeasurement` calls is 1 or 0 accordingly, its flag
is set on return, and a second call of the same getter right after performs
exactly one `readMeasurement`. -/
theorem getter_refreshes_iff_reported (R : RegisterMap) (f : Field)
    (s : SFE_PARTICLE_SENSOR) :
    (f.reported s = true →
      f.get R s = (readMeasurement s).map fun r => (f.decode R r.2, f.mark r.2)) ∧
    (f.reported s = false → f.get R s = some (f.decode R s, f.mark s)) ∧
    (f.reported s = false ∨ writeStatus s ≠ 0 ∨ (delivered s).length ≤ 40 →
      ∃ v s1, f.get R s = some (v, s1)) ∧
    (∀ v s1, f.get R s = some (v, s1) →
      refreshes s s1 = (if f.reported s = true then 1 else 0) ∧
      f.reported s1 = true ∧
      ∀ v2 s2, f.get R s1 = some (v2, s2) → refreshes s1 s2 = 1) := by
  refine ⟨Field.get_of_reported R f s, Field.get_of_not_reported R f s, ?_, ?_⟩
  · intro h
    cases hf : f.reported s with
    | false => exact ⟨_, _, Field.get_of_not_reported R f s hf⟩
    | true =>
      have h2 : writeStatus s ≠ 0 ∨ (delivered s).length ≤ 40 := by
        rcases h with h | h
        · rw [hf] at h; exact absurd h (by simp)
        · exact h
      obtain ⟨r, s1, hr⟩ := readMeasurement_isSome s h2
      exact ⟨_, _, by rw [Field.get_of_reported R f s hf, hr]; rfl⟩
  · intro v s1 h
    have hrep : f.reported s1 = true := by
      rw [Field.get_eq] at h
      cases hr : refreshIf (f.reported s) s with
      | none => rw [hr] at h; exact absurd h (by simp)
      | some s2 =>
        rw [hr] at h
        simp only [Option.map_some', Option.some.injEq, Prod.mk.injEq] at h
        rw [← h.2]
        exact Field.reported_mark_self f s2
    refine ⟨Field.refreshes_get R f s s1 v h, hrep, ?_⟩
    intro v2 s2 h2
    rw [Field.refreshes_get R f s1 s2 v2 h2, hrep]
    simp

/-! ## Flags after `readMeasurement` -/

theorem reported_clearReported (f : Field) (s : SFE_PARTICLE_SENSOR) :
    f.reported (clearReported s) = false := by
  cases f <;> rfl

theorem reported_afterNack (f : Field) (s : SFE_PARTICLE_SENSOR) :
    f.reported (afterNack s) = f.reported s := by
  cases f <;> rfl

theorem readMeasurement_clears_flags_aux (s : SFE_PARTICLE_SENSOR) (hs : writeStatus s = 0)
    (r : Bool) (s1 : SFE_PARTICLE_SENSOR) (h : readMeasurement s = some (r, s1)) :
    AllReported false s1 := by
  by_cases hl : (delivered s).length ≤ 40
  · rw [readMeasurement_ack s hs hl] at h
    simp only [Option.some.injEq, Prod.mk.injEq] at h
    rw [← h.2]
    exact fun f => reported_clearReported f _
  · rw [readMeasurement_fault s hs (by omega)] at h
    exact absurd h (by simp)

/-- C2, refuted as stated: on a bus that does not acknowledge, a
`readMeasurement` called with all fourteen flags set returns `false` and
leaves all fourteen flags set. -/
theorem readMeasurement_nack_flags_stay_set :
    (readMeasurement (sensorWith nackWire (bufOf []) true)).map
        (fun r => (r.1, Field.all.map fun f => f.reported r.2)) =
      some (false, List.replicate 14 true) := by
  decide

/-- C2, amended: whenever the register write is acknowledged and
`readMeasurement` returns, it returns `true` with all fourteen flags clear,
and it does return when at most 40 bytes arrive; when the write is not
acknowledged it returns `false` and every flag keeps its value. -/
theorem readMeasurement_clears_flags_when_acknowledged (s : SFE_PARTICLE_SENSOR) :
    (writeStatus s = 0 → ∀ r s1, readMeasurement s = some (r, s1) →
      r = true ∧ AllReported false s1) ∧
    (writeStatus s = 0 → (delivered s).length ≤ 40 →
      ∃ s1, readMeasurement s = some (true, s1) ∧ AllReported false s1) ∧
    (writeStatus s ≠ 0 →
      ∃ s1, readMeasurement s = some (false, s1) ∧ ∀ f : Field, f.reported s1 = f.reported s) := by
  have hack : writeStatus s = 0 → (delivered s).length ≤ 40 →
      ∃ s1, readMeasurement s = some (true, s1) ∧ AllReported false s1 := by
    intro hs hl
    exact ⟨_, readMeasurement_ack s hs hl, fun f => reported_clearReported f _⟩
  refine ⟨?_, hack, ?_⟩
  · intro hs r s1 h
    by_cases hl : (delivered s).length ≤ 40
    · obtain ⟨s2, h2, hall⟩ := hack hs hl
      rw [h2] at h
      simp only [Option.some.injEq, Prod.mk.injEq] at h
      rw [← h.1, ← h.2]
      exact ⟨rfl, hall⟩
    · rw [readMeasurement_fault s hs (by omega)] at h
      exact absurd h (by simp)
  · intro hs
    exact ⟨_, readMeasurement_nack s hs, fun f => reported_afterNack f s⟩

/-! ## Runs of getters -/

theorem getAll_without_refresh (R : RegisterMap) (l : List Field) :
    ∀ s : SFE_PARTICLE_SENSOR, (∀ f ∈ l, f.reported s = false) → l.Nodup →
    ∃ s2, getAll R l s = some (l.map (fun f => f.decode R s), s2) ∧
      s2._i2cPort = s._i2cPort ∧ s2.read_buf = s.read_buf ∧
      ∀ g : Field, g.reported s2 = (decide (g ∈ l) || g.reported s) := by
  induction l with
  | nil =>
    intro s _ _
    exact ⟨s, rfl, rfl, rfl, fun g => by simp⟩
  | cons f fs ih =>
    intro s hclear hnd
    have hf : f.reported s = false := hclear f (List.mem_cons_self f fs)
    have hnd2 := List.nodup_cons.mp hnd
    have hclear2 : ∀ g ∈ fs, g.reported (f.mark s) = false := by
      intro g hg
      have hne : g ≠ f := fun h => hnd2.1 (h ▸ hg)
      rw [Field.reported_mark_of_ne f g s hne]
      exact hclear g (List.mem_cons_of_mem f hg)
    obtain ⟨s2, hrun, hport, hbuf, hflags⟩ := ih (f.mark s) hclear2 hnd2.2
    refine ⟨s2, ?_, ?_, ?_, ?_⟩
    · have hmap : fs.map (fun g => g.decode R (f.mark s)) = fs.map (fun g => g.decode R s) :=
        List.map_congr_left fun g _ => Field.decode_mark R g f s
      rw [hmap] at hrun
      simp only [getAll, Field.get_of_not_reported R f s hf, hrun, List.map_cons]
    · rw [hport, Field.i2cPort_mark]
    · rw [hbuf, Field.read_buf_mark]
    · intro g
      rw [hflags g]
      by_cases hgf : g = f
      · subst hgf
        simp [Field.reported_mark_self]
      · rw [Field.reported_mark_of_ne f g s hgf]
        simp [hgf]

theorem mem_all (f : Field) : f ∈ Field.all := by
  cases f <;> decide

theorem nodup_all : Field.all.Nodup := by
  decide

theorem writeStatus_mark (f : Field) (s : SFE_PARTICLE_SENSOR) :
    writeStatus (f.mark s) = writeStatus s := by
  cases f <;> rfl

theorem delivered_mark (f : Field) (s : SFE_PARTICLE_SENSOR) :
    delivered (f.mark s) = delivered s := by
  cases f <;> rfl

theorem getAll_refreshes_le_one (R : RegisterMap) (l : List Field) :
    ∀ s : SFE_PARTICLE_SENSOR, l.Nodup → writeStatus s = 0 → (delivered s).length ≤ 40 →
    ∃ vs s2, getAll R l s = some (vs, s2) ∧ refreshes s s2 ≤ 1 := by
  induction l with
  | nil =>
    intro s _ _ _
    exact ⟨[], s, rfl, by simp [refreshes]⟩
  | cons f fs ih =>
    intro s hnd hs hl
    have hnd2 := List.nodup_cons.mp hnd
    cases hf : f.reported s with
    | false =>
      obtain ⟨vs, s2, hrun, hle⟩ := ih (f.mark s) hnd2.2
        (by rw [writeStatus_mark]; exact hs) (by rw [delivered_mark]; exact hl)
      refine ⟨f.decode R s :: vs, s2, ?_, ?_⟩
      · simp only [getAll, Field.get_of_not_reported R f s hf, hrun]
      · unfold refreshes at hle ⊢
        rw [Field.i2cPort_mark] at hle
        exact hle
    | true =>
      have hget := Field.get_of_reported R f s hf
      rw [readMeasurement_ack s hs hl] at hget
      simp only [Option.map_some'] at hget
      have hclear : ∀ g ∈ fs,
          g.reported (f.mark (clearReported (drained (afterRequest s)))) = false := by
        intro g hg
        have hne : g ≠ f := fun h => hnd2.1 (h ▸ hg)
        rw [Field.reported_mark_of_ne f g _ hne]
        exact reported_clearReported g _
      obtain ⟨s2, hrun, hport, _, _⟩ := getAll_without_refresh R fs _ hclear hnd2.2
      refine ⟨f.decode R (clearReported (drained (afterRequest s))) ::
          fs.map (fun g => g.decode R (f.mark (clearReported (drained (afterRequest s))))),
        s2, ?_, ?_⟩
      · simp only [getAll, hget, hrun]
      · unfold refreshes
        rw [hport, Field.i2cPort_mark]
        show (drained (afterRequest s))._i2cPort.transactions - _ ≤ 1
        rw [transactions_drained, transactions_afterRequest]
        omega

/-- C3: on a bus that acknowledges the register write (and delivers at most 40
bytes), from a state with all fourteen flags set, the fourteen getters called
once each in any order perform exactly one `readMeasurement`, inside the first
call; the calls after it leave the port and the buffer as that
`readMeasurement` left them, every returned value is decoded from that
snapshot, and all fourteen flags are set again at the end. -/
theorem one_refresh_serves_whole_cycle (R : RegisterMap) (s : SFE_PARTICLE_SENSOR)
    (l : List Field) (hl : l.Perm Field.all) (hall : AllReported true s)
    (hack : writeStatus s = 0) (hlen : (delivered s).length ≤ 40) :
    ∃ s1 s2, readMeasurement s = some (true, s1) ∧
      getAll R l s = some (l.map (fun f => f.decode R s1), s2) ∧
      (∀ f fs, l = f :: fs →
        f.get R s = some (f.decode R s1, f.mark s1) ∧
        getAll R fs (f.mark s1) = some (fs.map (fun g => g.decode R s1), s2)) ∧
      refreshes s s2 = 1 ∧ s2._i2cPort = s1._i2cPort ∧ s2.read_buf = s1.read_buf ∧
      AllReported true s2 := by
  have hnd : l.Nodup := hl.nodup_iff.mpr nodup_all
  have hmem : ∀ g : Field, g ∈ l := fun g => hl.mem_iff.mpr (mem_all g)
  have hread := readMeasurement_ack s hack hlen
  cases l with
  | nil => exact absurd (hmem Field.PM1_0) (by simp)
  | cons f fs =>
    have hnd2 := List.nodup_cons.mp hnd
    have hget := Field.get_of_reported R f s (hall f)
    rw [hread] at hget
    simp only [Option.map_some'] at hget
    have hclear : ∀ g ∈ fs,
        g.reported (f.mark (clearReported (drained (afterRequest s)))) = false := by
      intro g hg
      have hne : g ≠ f := fun h => hnd2.1 (h ▸ hg)
      rw [Field.reported_mark_of_ne f g _ hne]
      exact reported_clearReported g _
    obtain ⟨s2, hrun, hport, hbuf, hflags⟩ := getAll_without_refresh R fs _ hclear hnd2.2
    have hmap : fs.map (fun g => g.decode R (f.mark (clearReported (drained (afterRequest s)))))
        = fs.map (fun g => g.decode R (clearReported (drained (afterRequest s)))) :=
      List.map_congr_left fun g _ => Field.decode_mark R g f _
    rw [hmap] at hrun
    rw [Field.i2cPort_mark] at hport
    rw [Field.read_buf_mark] at hbuf
    refine ⟨clearReported (drained (afterRequest s)), s2, hread, ?_, ?_, ?_, hport, hbuf, ?_⟩
    · simp only [getAll, hget, hrun, List.map_cons]
    · intro f1 fs1 heq
      obtain ⟨h1, h2⟩ := List.cons.inj heq
      subst h1
      subst h2
      exact ⟨hget, hrun⟩
    · unfold refreshes
      rw [hport]
      show (drained (afterRequest s))._i2cPort.transactions - _ = 1
      rw [transactions_drained, transactions_afterRequest]
      omega
    · intro g
      rw [hflags g]
      by_cases hgf : g = f
      · subst hgf
        simp [Field.reported_mark_self]
      · have hg : g ∈ fs := by
          rcases List.mem_cons.mp (hmem g) with h | h
          · exact absurd h hgf
          · exact h
        simp [hg]

/-- C3 at a concrete input: the getters called in reverse header order on a bus
that acknowledges and delivers the four bytes E8 03 00 00. -/
theorem one_refresh_serves_whole_cycle_witness :
    ∃ s1 s2,
      readMeasurement (sensorWith (ackWire [0xE8, 3, 0, 0]) (bufOf []) true) = some (true, s1) ∧
      getAll packedMap Field.all.reverse (sensorWith (ackWire [0xE8, 3, 0, 0]) (bufOf []) true) =
        some (Field.all.reverse.map (fun f => f.decode packedMap s1), s2) ∧
      (∀ f fs, Field.all.reverse = f :: fs →
        f.get packedMap (sensorWith (ackWire [0xE8, 3, 0, 0]) (bufOf []) true) =
          some (f.decode packedMap s1, f.mark s1) ∧
        getAll packedMap fs (f.mark s1) = some (fs.map (fun g => g.decode packedMap s1), s2)) ∧
      refreshes (sensorWith (ackWire [0xE8, 3, 0, 0]) (bufOf []) true) s2 = 1 ∧
      s2._i2cPort = s1._i2cPort ∧ s2.read_buf = s1.read_buf ∧ AllReported true s2 :=
  one_refresh_serves_whole_cycle packedMap
    (sensorWith (ackWire [0xE8, 3, 0, 0]) (bufOf []) true) Field.all.reverse
    (List.reverse_perm Field.all) (fun f => by cases f <;> rfl) (by decide) (by decide)

/-- C4, refuted as stated: on a bus that never acknowledges, after a
`readMeasurement` called with all fourteen flags set, the fourteen getters
called once each perform fourteen further `readMeasurement` calls. -/
theorem silent_bus_refreshes_fourteen_times :
    (readMeasurement (sensorWith nackWire (bufOf []) true)).bind
        (fun r => (getAll packedMap Field.all r.2).map fun q => refreshes r.2 q.2) =
      some 14 := by
  decide

/-- C4, amended: after a `readMeasurement`, whatever its outcome, the fourteen
getters called once each in any order perform at most one further
`readMeasurement` provided the bus acknowledges the next register write and
makes at most 40 bytes available to the read that follows it (the getters
called before the first refresh make no bus call, so that write is the one of
the first refresh); and when that `readMeasurement` returned `true` they
perform none and make no bus call at all, whatever the bus. -/
theorem at_most_one_refresh_after_readMeasurement (R : RegisterMap)
    (s0 s : SFE_PARTICLE_SENSOR) (r : Bool) (l : List Field) (hl : l.Perm Field.all)
    (h0 : readMeasurement s0 = some (r, s)) :
    (writeStatus s = 0 → (delivered s).length ≤ 40 →
      ∃ vs s2, getAll R l s = some (vs, s2) ∧ refreshes s s2 ≤ 1) ∧
    (r = true →
      ∃ vs s2, getAll R l s = some (vs, s2) ∧ refreshes s s2 = 0 ∧
        s2._i2cPort = s._i2cPort) := by
  have hnd : l.Nodup := hl.nodup_iff.mpr nodup_all
  refine ⟨fun hs hlen => getAll_refreshes_le_one R l s hnd hs hlen, ?_⟩
  intro hr
  subst hr
  have hclear : ∀ f ∈ l, f.reported s = false := by
    intro f _
    by_cases hs : writeStatus s0 = 0
    · exact ((readMeasurement_clears_flags_aux s0 hs true s h0) f)
    · rw [readMeasurement_nack s0 hs] at h0
      simp at h0
  obtain ⟨s2, hrun, hport, _, _⟩ := getAll_without_refresh R l s hclear hnd
  exact ⟨_, s2, hrun, by simp [refreshes, hport], hport⟩

/-- C4, amended, at a concrete input: the device misses the `readMeasurement`
called first, which returns `false` and leaves all fourteen flags set, and it
acknowledges the next register write. -/
theorem at_most_one_refresh_after_readMeasurement_witness :
    writeStatus (afterNack (sensorWith (lateWire [0xE8, 3]) (bufOf []) true)) = 0 ∧
    (delivered (afterNack (sensorWith (lateWire [0xE8, 3]) (bufOf []) true))).length ≤ 40 ∧
    ∃ vs s2,
      getAll packedMap Field.all (afterNack (sensorWith (lateWire [0xE8, 3]) (bufOf []) true)) =
        some (vs, s2) ∧
      refreshes (afterNack (sensorWith (lateWire [0xE8, 3]) (bufOf []) true)) s2 ≤ 1 :=
  ⟨by decide, by decide,
    (at_most_one_refresh_after_readMeasurement packedMap
      (sensorWith (lateWire [0xE8, 3]) (bufOf []) true) _ false Field.all (List.Perm.refl _)
      (readMeasurement_nack _ (by decide))).1 (by decide) (by decide)⟩

/-! ## Rounding to floating point -/

theorem bitLength_spec (fuel : Nat) : ∀ n : Nat, n ≤ fuel → n ≠ 0 →
    2 ^ bitLength fuel n ≤ 2 * n ∧ n < 2 ^ bitLength fuel n := by
  induction fuel with
  | zero =>
    intro n hn h0
    omega
  | succ f ih =>
    intro n hn h0
    simp only [bitLength, h0, if_false]
    by_cases h1 : n / 2 = 0
    · have hn1 : n = 1 := by omega
      subst hn1
      cases f with
      | zero => simp [bitLength]
      | succ g => simp [bitLength]
    · obtain ⟨ha, hb⟩ := ih (n / 2) (by omega) h1
      rw [pow_succ]
      constructor <;> omega

theorem scaled_den_pos (n d : Nat) (k : Int) (hd : 0 < d) : 0 < (scaled n d k).2 := by
  unfold scaled
  split
  · exact Nat.mul_pos hd (pow_pos (by decide) _)
  · exact hd

theorem scaled_cross (n d : Nat) (k : Int) :
    ((scaled n d k).1 : ℚ) * d * (2 : ℚ) ^ k = (n : ℚ) * (scaled n d k).2 := by
  unfold scaled
  split
  · rename_i h
    obtain ⟨j, rfl⟩ := Int.eq_ofNat_of_zero_le h
    simp only [Int.toNat_ofNat, Nat.cast_mul, Nat.cast_pow, Nat.cast_ofNat, zpow_natCast]
    ring
  · rename_i h
    have hk : k = -((-k).toNat : Int) := by omega
    rw [hk]
    simp only [neg_neg, Int.toNat_ofNat, Nat.cast_mul, Nat.cast_pow, Nat.cast_ofNat, zpow_neg,
      zpow_natCast]
    have h2 : (2 : ℚ) ^ (-k).toNat ≠ 0 := pow_ne_zero _ (by norm_num)
    field_simp
    ring

theorem nearestEven_err (num den : Nat) (hden : 0 < den) :
    |(nearestEven num den : ℚ) * den - num| ≤ (den : ℚ) / 2 := by
  have hdm : ((num / den : Nat) : ℚ) * den + ((num % den : Nat) : ℚ) = num := by
    have := Nat.div_add_mod num den
    have h2 : (((den * (num / den) + num % den : Nat)) : ℚ) = (num : ℚ) := by rw [this]
    push_cast at h2
    linarith
  have hrem : (num % den : Nat) < den := Nat.mod_lt _ hden
  have hr0 : (0 : ℚ) ≤ ((num % den : Nat) : ℚ) := Nat.cast_nonneg _
  have hr' : ((num % den : Nat) : ℚ) < den := by exact_mod_cast hrem
  unfold nearestEven
  split
  · rename_i h
    have h' : (2 : ℚ) * ((num % den : Nat) : ℚ) < den := by exact_mod_cast h
    rw [abs_le]
    constructor <;> linarith
  · rename_i h
    have h' : (den : ℚ) ≤ (2 : ℚ) * ((num % den : Nat) : ℚ) := by
      exact_mod_cast Nat.le_of_not_lt h
    split
    · rw [abs_le]
      push_cast
      constructor <;> linarith
    · rename_i h2
      have h2' : (2 : ℚ) * ((num % den : Nat) : ℚ) ≤ den := by
        exact_mod_cast Nat.le_of_not_lt h2
      split
      · rw [abs_le]
        constructor <;> linarith
      · rw [abs_le]
        push_cast
        constructor <;> linarith

theorem roundQuot_exponent (p n d : Nat) (hp : 0 < p) (hd : 0 < d) (hn : n ≠ 0) :
    (2 : ℚ) ^ (p - 1) * (2 : ℚ) ^ (roundQuot p n d).exp * d ≤ n := by
  have hd' : (0 : ℚ) < d := by exact_mod_cast hd
  simp only [roundQuot, hn, if_false]
  split
  · rename_i h
    have hden := scaled_den_pos n d ((bitLength n n : Int) - (bitLength d d : Int) - (p : Int) + 1) hd
    have hcross := scaled_cross n d ((bitLength n n : Int) - (bitLength d d : Int) - (p : Int) + 1)
    have hden' : (0 : ℚ) <
        ((scaled n d ((bitLength n n : Int) - (bitLength d d : Int) - (p : Int) + 1)).2 : ℚ) := by
      exact_mod_cast hden
    have h' : (2 : ℚ) ^ (p - 1) *
        ((scaled n d ((bitLength n n : Int) - (bitLength d d : Int) - (p : Int) + 1)).2 : ℚ) ≤
        ((scaled n d ((bitLength n n : Int) - (bitLength d d : Int) - (p : Int) + 1)).1 : ℚ) := by
      exact_mod_cast h
    have ht : (0 : ℚ) < (2 : ℚ) ^ ((bitLength n n : Int) - (bitLength d d : Int) - (p : Int) + 1) :=
      zpow_pos (by norm_num) _
    have hmul := mul_le_mul_of_nonneg_right h' (le_of_lt (mul_pos hd' ht))
    have hfin : (2 : ℚ) ^ (p - 1) *
        (2 : ℚ) ^ ((bitLength n n : Int) - (bitLength d d : Int) - (p : Int) + 1) * d *
        ((scaled n d ((bitLength n n : Int) - (bitLength d d : Int) - (p : Int) + 1)).2 : ℚ) ≤
        (n : ℚ) * ((scaled n d ((bitLength n n : Int) - (bitLength d d : Int) - (p : Int) + 1)).2 : ℚ) := by
      rw [← hcross]
      linarith
    exact le_of_mul_le_mul_right hfin hden'
  · obtain ⟨hn1, _⟩ := bitLength_spec n n (le_refl _) hn
    obtain ⟨_, hd2⟩ := bitLength_spec d d (le_refl _) (by omega)
    have hn1' : (2 : ℚ) ^ (bitLength n n) ≤ 2 * (n : ℚ) := by exact_mod_cast hn1
    have hd2' : (d : ℚ) ≤ (2 : ℚ) ^ (bitLength d d) := by exact_mod_cast le_of_lt hd2
    have hexp : (2 : ℚ) ^ (p - 1) *
        (2 : ℚ) ^ ((bitLength n n : Int) - (bitLength d d : Int) - (p : Int) + 1 - 1) *
        (2 : ℚ) ^ (bitLength d d) * 2 = (2 : ℚ) ^ (bitLength n n) := by
      have e1 : (2 : ℚ) ^ (p - 1) = (2 : ℚ) ^ (((p - 1 : Nat) : Int)) := (zpow_natCast _ _).symm
      have e2 : (2 : ℚ) ^ (bitLength d d) = (2 : ℚ) ^ ((bitLength d d : Nat) : Int) :=
        (zpow_natCast _ _).symm
      have e3 : (2 : ℚ) ^ (bitLength n n) = (2 : ℚ) ^ ((bitLength n n : Nat) : Int) :=
        (zpow_natCast _ _).symm
      have e4 : (2 : ℚ) = (2 : ℚ) ^ (1 : Int) := (zpow_one _).symm
      rw [e1, e2, e3]
      nth_rewrite 4 [e4]
      rw [← zpow_add₀ (by norm_num : (2 : ℚ) ≠ 0), ← zpow_add₀ (by norm_num : (2 : ℚ) ≠ 0),
        ← zpow_add₀ (by norm_num : (2 : ℚ) ≠ 0)]
      congr 1
      omega
    have hpos : (0 : ℚ) ≤ (2 : ℚ) ^ (p - 1) *
        (2 : ℚ) ^ ((bitLength n n : Int) - (bitLength d d : Int) - (p : Int) + 1 - 1) :=
      le_of_lt (mul_pos (pow_pos (by norm_num) _) (zpow_pos (by norm_num) _))
    have hmul := mul_le_mul_of_nonneg_left hd2' hpos
    linarith

theorem toRat_roundQuot_zero (p d : Nat) : (roundQuot p 0 d).toRat = 0 := by
  simp [roundQuot, BinaryFloat.toRat]

theorem roundQuot_err (p n d : Nat) (hp : 0 < p) (hd : 0 < d) :
    |(roundQuot p n d).toRat - (n : ℚ) / d| ≤ (n : ℚ) / d / 2 ^ p := by
  by_cases hn : n = 0
  · subst hn
    simp [toRat_roundQuot_zero]
  · have hexp := roundQuot_exponent p n d hp hd hn
    have hd' : (0 : ℚ) < d := by exact_mod_cast hd
    have hden := scaled_den_pos n d (roundQuot p n d).exp hd
    have hden' : (0 : ℚ) < ((scaled n d (roundQuot p n d).exp).2 : ℚ) := by exact_mod_cast hden
    have hcross := scaled_cross n d (roundQuot p n d).exp
    have herr := nearestEven_err (scaled n d (roundQuot p n d).exp).1
      (scaled n d (roundQuot p n d).exp).2 hden
    have hmant : (roundQuot p n d).mant =
        nearestEven (scaled n d (roundQuot p n d).exp).1 (scaled n d (roundQuot p n d).exp).2 := by
      simp only [roundQuot, hn, if_false]
    have ht : (0 : ℚ) < (2 : ℚ) ^ (roundQuot p n d).exp := zpow_pos (by norm_num) _
    have hpp : (2 : ℚ) ^ p = 2 * (2 : ℚ) ^ (p - 1) := by
      obtain ⟨j, rfl⟩ : ∃ j, p = j + 1 := ⟨p - 1, by omega⟩
      rw [Nat.add_sub_cancel, pow_succ]
      ring
    have hp1 : (0 : ℚ) < (2 : ℚ) ^ (p - 1) := pow_pos (by norm_num) _
    unfold BinaryFloat.toRat
    rw [hmant]
    generalize (nearestEven (scaled n d (roundQuot p n d).exp).1
      (scaled n d (roundQuot p n d).exp).2 : ℚ) = m at herr ⊢
    generalize ((scaled n d (roundQuot p n d).exp).1 : ℚ) = N at herr hcross
    generalize ((scaled n d (roundQuot p n d).exp).2 : ℚ) = D at herr hcross hden'
    generalize (2 : ℚ) ^ (roundQuot p n d).exp = t at ht hexp hcross ⊢
    generalize (2 : ℚ) ^ (p - 1) = P at hpp hp1 hexp
    rw [hpp]
    have hN : N = (n : ℚ) / d / t * D := by
      field_simp
      linarith
    rw [hN] at herr
    have hkey : m * t - (n : ℚ) / d = (m * D - (n : ℚ) / d / t * D) * (t / D) := by
      field_simp
      ring
    have htD : (0 : ℚ) < t / D := div_pos ht hden'
    rw [hkey, abs_mul, abs_of_pos htD]
    have h1 : |m * D - (n : ℚ) / d / t * D| * (t / D) ≤ D / 2 * (t / D) :=
      mul_le_mul_of_nonneg_right herr (le_of_lt htD)
    have h2 : D / 2 * (t / D) = t / 2 := by
      field_simp
      ring
    have h3 : t / 2 ≤ (n : ℚ) / d / (2 * P) := by
      rw [le_div_iff₀ (by positivity), le_div_iff₀ hd']
      linarith
    linarith

theorem toRat_scaled (x : BinaryFloat) :
    ((scaled x.mant 1 (-x.exp)).1 : ℚ) / (scaled x.mant 1 (-x.exp)).2 = x.toRat := by
  have hcross := scaled_cross x.mant 1 (-x.exp)
  have hden := scaled_den_pos x.mant 1 (-x.exp) (by decide)
  have hden' : (0 : ℚ) < ((scaled x.mant 1 (-x.exp)).2 : ℚ) := by exact_mod_cast hden
  have ht : (0 : ℚ) < (2 : ℚ) ^ x.exp := zpow_pos (by norm_num) _
  unfold BinaryFloat.toRat
  rw [zpow_neg] at hcross
  rw [div_eq_iff (ne_of_gt hden')]
  field_simp at hcross
  linarith

theorem roundFloat_err (p : Nat) (x : BinaryFloat) (hp : 0 < p) :
    |(roundFloat p x).toRat - x.toRat| ≤ x.toRat / 2 ^ p := by
  have h := roundQuot_err p (scaled x.mant 1 (-x.exp)).1 (scaled x.mant 1 (-x.exp)).2 hp
    (scaled_den_pos x.mant 1 (-x.exp) (by decide))
  rw [toRat_scaled] at h
  exact h

theorem quotientAsFloat_err (count : Nat) :
    |(quotientAsFloat count).toRat - (count : ℚ) / 1000| ≤ (count : ℚ) / 1000 / 2 ^ 23 := by
  have h1 := roundQuot_err 53 count 1000 (by decide) (by decide)
  have h2 := roundFloat_err 24 (roundQuot 53 count 1000) (by decide)
  have hq : (0 : ℚ) ≤ (count : ℚ) / 1000 := by positivity
  unfold quotientAsFloat
  push_cast at h1
  generalize (roundFloat 24 (roundQuot 53 count 1000)).toRat = y at h2 ⊢
  generalize (roundQuot 53 count 1000).toRat = x at h1 h2
  generalize (count : ℚ) / 1000 = q at h1 hq ⊢
  rw [abs_le] at h1 h2 ⊢
  have e53 : q / 2 ^ 53 = q * (1 / 2 ^ 53) := by ring
  have e24 : x / 2 ^ 24 = x * (1 / 2 ^ 24) := by ring
  have e23 : q / 2 ^ 23 = q * (1 / 2 ^ 23) := by ring
  rw [e53] at h1
  rw [e24] at h2
  rw [e23]
  norm_num at h1 h2 ⊢
  constructor <;> linarith


theorem nearestEven_le (num den : Nat) : nearestEven num den ≤ num / den + 1 := by
  unfold nearestEven
  split
  · omega
  · split
    · omega
    · split <;> omega

theorem roundQuot_upper (p n d : Nat) (hp : 0 < p) (hd : 0 < d) (hn : n ≠ 0) :
    (n : ℚ) < (2 : ℚ) ^ p * (2 : ℚ) ^ (roundQuot p n d).exp * d := by
  have hd' : (0 : ℚ) < d := by exact_mod_cast hd
  have hpp : (2 : ℚ) ^ p = 2 * (2 : ℚ) ^ (p - 1) := by
    obtain ⟨j, rfl⟩ : ∃ j, p = j + 1 := ⟨p - 1, by omega⟩
    rw [Nat.add_sub_cancel, pow_succ]
    ring
  simp only [roundQuot, hn, if_false]
  split
  · obtain ⟨_, hn2⟩ := bitLength_spec n n (le_refl _) hn
    obtain ⟨hd1, _⟩ := bitLength_spec d d (le_refl _) (by omega)
    have hn2' : (n : ℚ) < (2 : ℚ) ^ (bitLength n n) := by exact_mod_cast hn2
    have hd1' : (2 : ℚ) ^ (bitLength d d) ≤ 2 * (d : ℚ) := by exact_mod_cast hd1
    have hexp : (2 : ℚ) ^ p *
        (2 : ℚ) ^ ((bitLength n n : Int) - (bitLength d d : Int) - (p : Int) + 1) *
        (2 : ℚ) ^ (bitLength d d) = (2 : ℚ) ^ (bitLength n n) * 2 := by
      have e1 : (2 : ℚ) ^ p = (2 : ℚ) ^ ((p : Nat) : Int) := (zpow_natCast _ _).symm
      have e2 : (2 : ℚ) ^ (bitLength d d) = (2 : ℚ) ^ ((bitLength d d : Nat) : Int) :=
        (zpow_natCast _ _).symm
      have e3 : (2 : ℚ) ^ (bitLength n n) = (2 : ℚ) ^ ((bitLength n n : Nat) : Int) :=
        (zpow_natCast _ _).symm
      have e4 : (2 : ℚ) ^ ((bitLength n n : Nat) : Int) * 2 =
          (2 : ℚ) ^ ((bitLength n n : Nat) : Int) * (2 : ℚ) ^ (1 : Int) := by
        rw [zpow_one]
      rw [e1, e2, e3, e4, ← zpow_add₀ (by norm_num : (2 : ℚ) ≠ 0),
        ← zpow_add₀ (by norm_num : (2 : ℚ) ≠ 0), ← zpow_add₀ (by norm_num : (2 : ℚ) ≠ 0)]
      congr 1
      omega
    have hpos : (0 : ℚ) < (2 : ℚ) ^ p *
        (2 : ℚ) ^ ((bitLength n n : Int) - (bitLength d d : Int) - (p : Int) + 1) :=
      mul_pos (pow_pos (by norm_num) _) (zpow_pos (by norm_num) _)
    have hmul := mul_le_mul_of_nonneg_left hd1' (le_of_lt hpos)
    nlinarith
  · rename_i h
    have hden := scaled_den_pos n d ((bitLength n n : Int) - (bitLength d d : Int) - (p : Int) + 1) hd
    have hcross := scaled_cross n d ((bitLength n n : Int) - (bitLength d d : Int) - (p : Int) + 1)
    have hden' : (0 : ℚ) <
        ((scaled n d ((bitLength n n : Int) - (bitLength d d : Int) - (p : Int) + 1)).2 : ℚ) := by
      exact_mod_cast hden
    have h' : ((scaled n d ((bitLength n n : Int) - (bitLength d d : Int) - (p : Int) + 1)).1 : ℚ) <
        (2 : ℚ) ^ (p - 1) *
        ((scaled n d ((bitLength n n : Int) - (bitLength d d : Int) - (p : Int) + 1)).2 : ℚ) := by
      exact_mod_cast Nat.lt_of_not_le h
    have ht : (0 : ℚ) < (2 : ℚ) ^ ((bitLength n n : Int) - (bitLength d d : Int) - (p : Int) + 1) :=
      zpow_pos (by norm_num) _
    have hstep : (2 : ℚ) ^ ((bitLength n n : Int) - (bitLength d d : Int) - (p : Int) + 1) =
        (2 : ℚ) ^ ((bitLength n n : Int) - (bitLength d d : Int) - (p : Int) + 1 - 1) * 2 := by
      rw [zpow_sub_one₀ (by norm_num : (2 : ℚ) ≠ 0)]
      field_simp
    have hmul := mul_lt_mul_of_pos_right h' (mul_pos hd' ht)
    have hfin : (n : ℚ) *
        ((scaled n d ((bitLength n n : Int) - (bitLength d d : Int) - (p : Int) + 1)).2 : ℚ) <
        (2 : ℚ) ^ p *
        (2 : ℚ) ^ ((bitLength n n : Int) - (bitLength d d : Int) - (p : Int) + 1 - 1) * d *
        ((scaled n d ((bitLength n n : Int) - (bitLength d d : Int) - (p : Int) + 1)).2 : ℚ) := by
      rw [hstep] at hmul hcross
      rw [hpp]
      linarith
    exact lt_of_mul_lt_mul_right hfin (le_of_lt hden')

theorem roundQuot_mant_le (p n d : Nat) (hp : 0 < p) (hd : 0 < d) :
    (roundQuot p n d).mant ≤ 2 ^ p := by
  by_cases hn : n = 0
  · subst hn
    simp [roundQuot]
  · have hup := roundQuot_upper p n d hp hd hn
    have hd' : (0 : ℚ) < d := by exact_mod_cast hd
    have hden := scaled_den_pos n d (roundQuot p n d).exp hd
    have hden' : (0 : ℚ) < ((scaled n d (roundQuot p n d).exp).2 : ℚ) := by exact_mod_cast hden
    have hcross := scaled_cross n d (roundQuot p n d).exp
    have ht : (0 : ℚ) < (2 : ℚ) ^ (roundQuot p n d).exp := zpow_pos (by norm_num) _
    have hmant : (roundQuot p n d).mant =
        nearestEven (scaled n d (roundQuot p n d).exp).1 (scaled n d (roundQuot p n d).exp).2 := by
      simp only [roundQuot, hn, if_false]
    have hlt : ((scaled n d (roundQuot p n d).exp).1 : ℚ) <
        (2 : ℚ) ^ p * ((scaled n d (roundQuot p n d).exp).2 : ℚ) := by
      have hmul := mul_lt_mul_of_pos_right hup hden'
      rw [← hcross] at hmul
      have hdt : (0 : ℚ) < d * (2 : ℚ) ^ (roundQuot p n d).exp := mul_pos hd' ht
      have : ((scaled n d (roundQuot p n d).exp).1 : ℚ) * (d * (2 : ℚ) ^ (roundQuot p n d).exp) <
          (2 : ℚ) ^ p * ((scaled n d (roundQuot p n d).exp).2 : ℚ) *
            (d * (2 : ℚ) ^ (roundQuot p n d).exp) := by
        linarith
      exact lt_of_mul_lt_mul_right this (le_of_lt hdt)
    have hlt' : (scaled n d (roundQuot p n d).exp).1 <
        2 ^ p * (scaled n d (roundQuot p n d).exp).2 := by
      exact_mod_cast hlt
    have hdiv : (scaled n d (roundQuot p n d).exp).1 / (scaled n d (roundQuot p n d).exp).2 <
        2 ^ p := (Nat.div_lt_iff_lt_mul hden).mpr hlt'
    rw [hmant]
    have := nearestEven_le (scaled n d (roundQuot p n d).exp).1
      (scaled n d (roundQuot p n d).exp).2
    omega

theorem quotientAsFloat_mant_le (count : Nat) : (quotientAsFloat count).mant ≤ 2 ^ 24 :=
  roundQuot_mant_le 24 _ _ (by decide) (scaled_den_pos _ 1 _ (by decide))

theorem toRat_quotientAsFloat_zero : (quotientAsFloat 0).toRat = 0 := by
  rw [show quotientAsFloat 0 = ⟨0, 0⟩ by decide]
  norm_num [BinaryFloat.toRat]

theorem toRat_quotientAsFloat_one : (quotientAsFloat 1).toRat = 8589935 / 2 ^ 33 := by
  rw [show quotientAsFloat 1 = ⟨8589935, -33⟩ by decide]
  norm_num [BinaryFloat.toRat]

theorem toRat_quotientAsFloat_thousand : (quotientAsFloat 1000).toRat = 1 := by
  rw [show quotientAsFloat 1000 = ⟨8388608, -23⟩ by decide]
  norm_num [BinaryFloat.toRat]

/-! ## Decoding -/

theorem or_of_four_bytes (a b c d : Nat) (ha : a < 256) (hb : b < 256) (hc : c < 256)
    (hd : d < 256) :
    (((d % 2 ^ 32) <<< 24) % 2 ^ 32) ||| (((c % 2 ^ 32) <<< 16) % 2 ^ 32) |||
      (((b % 2 ^ 32) <<< 8) % 2 ^ 32) ||| (((a % 2 ^ 32) <<< 0) % 2 ^ 32) =
    a + 2 ^ 8 * b + 2 ^ 16 * c + 2 ^ 24 * d := by
  have e3 : ((d % 2 ^ 32) <<< 24) % 2 ^ 32 = 2 ^ 24 * d := by
    rw [Nat.shiftLeft_eq, Nat.mod_eq_of_lt (by omega), Nat.mod_eq_of_lt (by omega)]; omega
  have e2 : ((c % 2 ^ 32) <<< 16) % 2 ^ 32 = 2 ^ 16 * c := by
    rw [Nat.shiftLeft_eq, Nat.mod_eq_of_lt (by omega), Nat.mod_eq_of_lt (by omega)]; omega
  have e1 : ((b % 2 ^ 32) <<< 8) % 2 ^ 32 = 2 ^ 8 * b := by
    rw [Nat.shiftLeft_eq, Nat.mod_eq_of_lt (by omega), Nat.mod_eq_of_lt (by omega)]; omega
  have e0 : ((a % 2 ^ 32) <<< 0) % 2 ^ 32 = a := by
    rw [Nat.shiftLeft_eq, Nat.mod_eq_of_lt (by omega), Nat.mod_eq_of_lt (by omega)]; omega
  rw [e3, e2, e1, e0]
  have s1 : 2 ^ 24 * d ||| 2 ^ 16 * c = 2 ^ 16 * (2 ^ 8 * d + c) := by
    rw [← Nat.mul_add_lt_is_or (by omega : 2 ^ 16 * c < 2 ^ 24) d]; omega
  rw [s1]
  have s2 : 2 ^ 16 * (2 ^ 8 * d + c) ||| 2 ^ 8 * b = 2 ^ 8 * (2 ^ 8 * (2 ^ 8 * d + c) + b) := by
    rw [← Nat.mul_add_lt_is_or (by omega : 2 ^ 8 * b < 2 ^ 16) (2 ^ 8 * d + c)]; omega
  rw [s2, ← Nat.mul_add_lt_is_or (by omega : a < 2 ^ 8)]
  omega

theorem or_of_two_bytes (a b : Nat) (ha : a < 256) (hb : b < 256) :
    (((b % 2 ^ 16) <<< 8) ||| a) % 2 ^ 16 = a + 256 * b := by
  have e1 : (b % 2 ^ 16) <<< 8 = 2 ^ 8 * b := by
    rw [Nat.shiftLeft_eq, Nat.mod_eq_of_lt (by omega)]; omega
  rw [e1, ← Nat.mul_add_lt_is_or (by omega : a < 2 ^ 8), Nat.mod_eq_of_lt (by omega)]
  omega

theorem two_bit_group (x k : Nat) :
    ((x >>> k) &&& 0b11) % 2 ^ 8 = (x >>> k) &&& 3 ∧ ((x >>> k) &&& 0b11) % 2 ^ 8 < 4 := by
  have h : (x >>> k) &&& 3 < 4 := Nat.and_lt_two_pow _ (by norm_num : 3 < 2 ^ 2)
  rw [Nat.mod_eq_of_lt (by omega)]
  exact ⟨rfl, h⟩

theorem bufAt_lt (s : SFE_PARTICLE_SENSOR) (hb : BytesInRange s) (i : Nat) : bufAt s i < 256 := by
  unfold bufAt
  split
  · exact hb _
  · decide

theorem readRegister32_eq (s : SFE_PARTICLE_SENSOR) (r : Nat) (hb : BytesInRange s) :
    readRegister32 s r =
      bufAt s r + 2 ^ 8 * bufAt s (r + 1) + 2 ^ 16 * bufAt s (r + 2) +
        2 ^ 24 * bufAt s (r + 3) :=
  or_of_four_bytes _ _ _ _ (bufAt_lt s hb _) (bufAt_lt s hb _) (bufAt_lt s hb _)
    (bufAt_lt s hb _)

theorem bufAt_of_lt (s : SFE_PARTICLE_SENSOR) (i : Nat) (h : i < 40) :
    bufAt s i = s.read_buf ⟨i, h⟩ := by
  unfold bufAt
  rw [dif_pos h]

/-- C5, refuted as stated: with the bytes 01 00 00 00 at offset 0 the raw value
is 1 and `getPM` returns the float 8589935 / 2^33 (bit pattern 3A83126F), which
is not the rational number 1/1000. -/
theorem getPM_of_raw_one_is_not_a_thousandth :
    readRegister32 (sensorWith nackWire (bufOf [1, 0, 0, 0]) false) SNGCJA5_PM1_0 = 1 ∧
    getPM (sensorWith nackWire (bufOf [1, 0, 0, 0]) false) SNGCJA5_PM1_0 = 8589935 / 2 ^ 33 ∧
    getPM (sensorWith nackWire (bufOf [1, 0, 0, 0]) false) SNGCJA5_PM1_0 ≠ 1 / 1000 := by
  have hraw : readRegister32 (sensorWith nackWire (bufOf [1, 0, 0, 0]) false) SNGCJA5_PM1_0 = 1 := by
    decide
  have hpm : getPM (sensorWith nackWire (bufOf [1, 0, 0, 0]) false) SNGCJA5_PM1_0 =
      8589935 / 2 ^ 33 := by
    unfold getPM
    rw [hraw, toRat_quotientAsFloat_one]
  refine ⟨hraw, hpm, ?_⟩
  rw [hpm]
  norm_num

/-- C5, amended: for a buffer of bytes and a register offset `r` with the four
bytes from `r` on inside it, the raw value is the little-endian combination of
those four bytes and is below 2^32; `getPM` returns that value divided by 1000
and rounded to a `float`: a number `m * 2^e` with `m ≤ 2^24` whose distance
from the exact quotient is at most the quotient divided by 2^23; with
E8 03 00 00 at offset 0 the raw value is 1000 and PM1.0 is exactly 1. -/
theorem getPM_rounds_raw_over_thousand (s : SFE_PARTICLE_SENSOR) (r : Nat) (hr : r + 3 < 40)
    (hb : BytesInRange s) :
    readRegister32 s r =
      s.read_buf ⟨r, by omega⟩ + 2 ^ 8 * s.read_buf ⟨r + 1, by omega⟩ +
        2 ^ 16 * s.read_buf ⟨r + 2, by omega⟩ + 2 ^ 24 * s.read_buf ⟨r + 3, hr⟩ ∧
    readRegister32 s r < 2 ^ 32 ∧
    (∃ (m : Nat) (e : Int), m ≤ 2 ^ 24 ∧ getPM s r = (m : ℚ) * (2 : ℚ) ^ e) ∧
    |getPM s r -
        ((s.read_buf ⟨r, by omega⟩ + 2 ^ 8 * s.read_buf ⟨r + 1, by omega⟩ +
          2 ^ 16 * s.read_buf ⟨r + 2, by omega⟩ + 2 ^ 24 * s.read_buf ⟨r + 3, hr⟩ : Nat) : ℚ) /
          1000| ≤
      ((s.read_buf ⟨r, by omega⟩ + 2 ^ 8 * s.read_buf ⟨r + 1, by omega⟩ +
        2 ^ 16 * s.read_buf ⟨r + 2, by omega⟩ + 2 ^ 24 * s.read_buf ⟨r + 3, hr⟩ : Nat) : ℚ) /
        1000 / 2 ^ 23 ∧
    (s.read_buf 0 = 0xE8 → s.read_buf 1 = 0x03 → s.read_buf 2 = 0 → s.read_buf 3 = 0 →
      readRegister32 s SNGCJA5_PM1_0 = 1000 ∧ getPM s SNGCJA5_PM1_0 = 1) := by
  have hraw : readRegister32 s r =
      s.read_buf ⟨r, by omega⟩ + 2 ^ 8 * s.read_buf ⟨r + 1, by omega⟩ +
        2 ^ 16 * s.read_buf ⟨r + 2, by omega⟩ + 2 ^ 24 * s.read_buf ⟨r + 3, hr⟩ := by
    rw [readRegister32_eq s r hb, bufAt_of_lt s r (by omega), bufAt_of_lt s (r + 1) (by omega),
      bufAt_of_lt s (r + 2) (by omega), bufAt_of_lt s (r + 3) hr]
  refine ⟨hraw, ?_, ?_, ?_, ?_⟩
  · rw [hraw]
    have h0 := hb ⟨r, by omega⟩
    have h1 := hb ⟨r + 1, by omega⟩
    have h2 := hb ⟨r + 2, by omega⟩
    have h3 := hb ⟨r + 3, hr⟩
    omega
  · exact ⟨(quotientAsFloat (readRegister32 s r)).mant, (quotientAsFloat (readRegister32 s r)).exp,
      quotientAsFloat_mant_le _, rfl⟩
  · rw [← hraw]
    exact quotientAsFloat_err (readRegister32 s r)
  · intro h0 h1 h2 h3
    have h : readRegister32 s SNGCJA5_PM1_0 = 1000 := by
      rw [readRegister32_eq s _ hb, bufAt_of_lt s _ (by decide), bufAt_of_lt s _ (by decide),
        bufAt_of_lt s _ (by decide), bufAt_of_lt s _ (by decide)]
      show s.read_buf 0 + 2 ^ 8 * s.read_buf 1 + 2 ^ 16 * s.read_buf 2 + 2 ^ 24 * s.read_buf 3 =
        1000
      rw [h0, h1, h2, h3]
      norm_num
    refine ⟨h, ?_⟩
    unfold getPM
    rw [h, toRat_quotientAsFloat_thousand]

/-- C5, amended, at a concrete input: the buffer that starts with E8 03 00 00,
decoded at offset 0. -/
theorem getPM_rounds_raw_over_thousand_witness :
    readRegister32 (sensorWith nackWire (bufOf [0xE8, 3, 0, 0]) false) SNGCJA5_PM1_0 = 1000 ∧
    getPM (sensorWith nackWire (bufOf [0xE8, 3, 0, 0]) false) SNGCJA5_PM1_0 = 1 :=
  (getPM_rounds_raw_over_thousand (sensorWith nackWire (bufOf [0xE8, 3, 0, 0]) false) 0
    (by decide) (by unfold BytesInRange; decide)).2.2.2.2 (by decide) (by decide) (by decide)
    (by decide)

/-- C6: for a buffer of bytes and an offset `a` with `a + 1 < 40`,
`readRegister16` returns the byte at `a` plus 256 times the byte at `a + 1`,
a value below 65536; and each of the six particle-count getters returns
`readRegister16` of its register on the buffer it leaves. -/
theorem readRegister16_little_endian (R : RegisterMap) (s : SFE_PARTICLE_SENSOR) (a : Nat)
    (ha : a + 1 < 40) (hb : BytesInRange s) :
    readRegister16 s a = s.read_buf ⟨a, by omega⟩ + 256 * s.read_buf ⟨a + 1, ha⟩ ∧
    readRegister16 s a < 65536 ∧
    (∀ v s1, getPC0_5 R s = some (v, s1) → v = readRegister16 s1 R.SNGCJA5_PCOUNT_0_5) ∧
    (∀ v s1, getPC1_0 R s = some (v, s1) → v = readRegister16 s1 R.SNGCJA5_PCOUNT_1_0) ∧
    (∀ v s1, getPC2_5 R s = some (v, s1) → v = readRegister16 s1 R.SNGCJA5_PCOUNT_2_5) ∧
    (∀ v s1, getPC5_0 R s = some (v, s1) → v = readRegister16 s1 R.SNGCJA5_PCOUNT_5_0) ∧
    (∀ v s1, getPC7_5 R s = some (v, s1) → v = readRegister16 s1 R.SNGCJA5_PCOUNT_7_5) ∧
    (∀ v s1, getPC10 R s = some (v, s1) → v = readRegister16 s1 R.SNGCJA5_PCOUNT_10) := by
  have h0 := hb ⟨a, by omega⟩
  have h1 := hb ⟨a + 1, ha⟩
  have hraw : readRegister16 s a = s.read_buf ⟨a, by omega⟩ + 256 * s.read_buf ⟨a + 1, ha⟩ := by
    unfold readRegister16
    rw [bufAt_of_lt s a (by omega), bufAt_of_lt s (a + 1) ha]
    exact or_of_two_bytes _ _ h0 h1
  refine ⟨hraw, by omega, ?_, ?_, ?_, ?_, ?_, ?_⟩
  · intro v s1 h
    unfold getPC0_5 at h
    cases hr : refreshIf s.Pc05HasBeenReported s with
    | none => rw [hr] at h; exact absurd h (by simp)
    | some s2 =>
      rw [hr] at h
      simp only [Option.map_some', Option.some.injEq, Prod.mk.injEq] at h
      rw [← h.1, ← h.2]
  · intro v s1 h
    unfold getPC1_0 at h
    cases hr : refreshIf s.Pc1HasBeenReported s with
    | none => rw [hr] at h; exact absurd h (by simp)
    | some s2 =>
      rw [hr] at h
      simp only [Option.map_some', Option.some.injEq, Prod.mk.injEq] at h
      rw [← h.1, ← h.2]
  · intro v s1 h
    unfold getPC2_5 at h
    cases hr : refreshIf s.Pc25HasBeenReported s with
    | none => rw [hr] at h; exact absurd h (by simp)
    | some s2 =>
      rw [hr] at h
      simp only [Option.map_some', Option.some.injEq, Prod.mk.injEq] at h
      rw [← h.1, ← h.2]
  · intro v s1 h
    unfold getPC5_0 at h
    cases hr : refreshIf s.Pc5HasBeenReported s with
    | none => rw [hr] at h; exact absurd h (by simp)
    | some s2 =>
      rw [hr] at h
      simp only [Option.map_some', Option.some.injEq, Prod.mk.injEq] at h
      rw [← h.1, ← h.2]
  · intro v s1 h
    unfold getPC7_5 at h
    cases hr : refreshIf s.Pc75HasBeenReported s with
    | none => rw [hr] at h; exact absurd h (by simp)
    | some s2 =>
      rw [hr] at h
      simp only [Option.map_some', Option.some.injEq, Prod.mk.injEq] at h
      rw [← h.1, ← h.2]
  · intro v s1 h
    unfold getPC10 at h
    cases hr : refreshIf s.Pc10HasBeenReported s with
    | none => rw [hr] at h; exact absurd h (by simp)
    | some s2 =>
      rw [hr] at h
      simp only [Option.map_some', Option.some.injEq, Prod.mk.injEq] at h
      rw [← h.1, ← h.2]

/-- C6 at a concrete input: the bytes 34 12 at offsets 12 and 13 decode to
0x1234. -/
theorem readRegister16_little_endian_witness :
    readRegister16
        (sensorWith nackWire (bufOf [0, 0, 0, 0, 0, 0, 0, 0, 0, 0, 0, 0, 0x34, 0x12]) false) 12 =
      0x1234 :=
  (readRegister16_little_endian packedMap
    (sensorWith nackWire (bufOf [0, 0, 0, 0, 0, 0, 0, 0, 0, 0, 0, 0, 0x34, 0x12]) false) 12
    (by decide) (by unfold BytesInRange; decide)).1.trans (by decide)

theorem getState_of_not_reported (R : RegisterMap) (s : SFE_PARTICLE_SENSOR)
    (h : s.StateHasBeenReported = false) :
    (getState R s).map Prod.fst = some (bufAt s R.SNGCJA5_STATE) := by
  simp [getState, refreshIf, h, readRegister8, bufAt]

theorem getStatusSensors_of_not_reported (R : RegisterMap) (s : SFE_PARTICLE_SENSOR)
    (h : s.StSenHasBeenReported = false) :
    (getStatusSensors R s).map Prod.fst = some ((bufAt s R.SNGCJA5_STATE >>> 6) &&& 3) := by
  have e := (two_bit_group (bufAt s R.SNGCJA5_STATE) 6).1
  simp only [getStatusSensors, refreshIf, h, Bool.false_eq_true, if_false, Option.map_some',
    readRegister8]
  exact congrArg some e

theorem getStatusPD_of_not_reported (R : RegisterMap) (s : SFE_PARTICLE_SENSOR)
    (h : s.StPdHasBeenReported = false) :
    (getStatusPD R s).map Prod.fst = some ((bufAt s R.SNGCJA5_STATE >>> 4) &&& 3) := by
  have e := (two_bit_group (bufAt s R.SNGCJA5_STATE) 4).1
  simp only [getStatusPD, refreshIf, h, Bool.false_eq_true, if_false, Option.map_some',
    readRegister8]
  exact congrArg some e

theorem getStatusLD_of_not_reported (R : RegisterMap) (s : SFE_PARTICLE_SENSOR)
    (h : s.StLdHasBeenReported = false) :
    (getStatusLD R s).map Prod.fst = some ((bufAt s R.SNGCJA5_STATE >>> 2) &&& 3) := by
  have e := (two_bit_group (bufAt s R.SNGCJA5_STATE) 2).1
  simp only [getStatusLD, refreshIf, h, Bool.false_eq_true, if_false, Option.map_some',
    readRegister8]
  exact congrArg some e

theorem getStatusFan_of_not_reported (R : RegisterMap) (s : SFE_PARTICLE_SENSOR)
    (h : s.StFanHasBeenReported = false) :
    (getStatusFan R s).map Prod.fst = some (bufAt s R.SNGCJA5_STATE &&& 3) := by
  have e := (two_bit_group (bufAt s R.SNGCJA5_STATE) 0).1
  simp only [Nat.shiftRight_zero] at e
  simp only [getStatusFan, refreshIf, h, Bool.false_eq_true, if_false, Option.map_some',
    readRegister8, Nat.shiftRight_zero]
  exact congrArg some e

theorem status_getter_lt_four (flag : Bool) (k : Nat) (R : RegisterMap)
    (s : SFE_PARTICLE_SENSOR) (g : SFE_PARTICLE_SENSOR → SFE_PARTICLE_SENSOR) (v : Nat)
    (s1 : SFE_PARTICLE_SENSOR)
    (h : ((refreshIf flag s).map fun s1 =>
      (((readRegister8 (g s1) R.SNGCJA5_STATE >>> k) &&& 0b11) % 2 ^ 8, g s1)) = some (v, s1)) :
    v < 4 := by
  cases hr : refreshIf flag s with
  | none => rw [hr] at h; exact absurd h (by simp)
  | some s2 =>
    rw [hr] at h
    simp only [Option.map_some', Option.some.injEq, Prod.mk.injEq] at h
    rw [← h.1]
    exact (two_bit_group _ k).2

/-- C7: with `b` the byte of the buffer at the state register, a getter whose
own flag is clear returns: `getState` the byte `b`, `getStatusSensors`
`(b >> 6) & 3`, `getStatusPD` `(b >> 4) & 3`, `getStatusLD` `(b >> 2) & 3`,
`getStatusFan` `b & 3`; whatever the flags, each of the four sub-field getters
returns a value below 4; and for `b = 0b10110001` the four return 2, 3, 0, 1. -/
theorem state_getters_slice_state_byte (R : RegisterMap) (s : SFE_PARTICLE_SENSOR)
    (hR : R.SNGCJA5_STATE < 40) :
    (s.StateHasBeenReported = false →
      (getState R s).map Prod.fst = some (s.read_buf ⟨R.SNGCJA5_STATE, hR⟩)) ∧
    (s.StSenHasBeenReported = false →
      (getStatusSensors R s).map Prod.fst =
        some ((s.read_buf ⟨R.SNGCJA5_STATE, hR⟩ >>> 6) &&& 3)) ∧
    (s.StPdHasBeenReported = false →
      (getStatusPD R s).map Prod.fst =
        some ((s.read_buf ⟨R.SNGCJA5_STATE, hR⟩ >>> 4) &&& 3)) ∧
    (s.StLdHasBeenReported = false →
      (getStatusLD R s).map Prod.fst =
        some ((s.read_buf ⟨R.SNGCJA5_STATE, hR⟩ >>> 2) &&& 3)) ∧
    (s.StFanHasBeenReported = false →
      (getStatusFan R s).map Prod.fst = some (s.read_buf ⟨R.SNGCJA5_STATE, hR⟩ &&& 3)) ∧
    (∀ v s1, getStatusSensors R s = some (v, s1) → v < 4) ∧
    (∀ v s1, getStatusPD R s = some (v, s1) → v < 4) ∧
    (∀ v s1, getStatusLD R s = some (v, s1) → v < 4) ∧
    (∀ v s1, getStatusFan R s = some (v, s1) → v < 4) ∧
    (s.read_buf ⟨R.SNGCJA5_STATE, hR⟩ = 0b10110001 →
      s.StSenHasBeenReported = false → s.StPdHasBeenReported = false →
      s.StLdHasBeenReported = false → s.StFanHasBeenReported = false →
      (getStatusSensors R s).map Prod.fst = some 2 ∧
      (getStatusPD R s).map Prod.fst = some 3 ∧
      (getStatusLD R s).map Prod.fst = some 0 ∧
      (getStatusFan R s).map Prod.fst = some 1) := by
  have hb := bufAt_of_lt s R.SNGCJA5_STATE hR
  refine ⟨?_, ?_, ?_, ?_, ?_, ?_, ?_, ?_, ?_, ?_⟩
  · intro h
    rw [getState_of_not_reported R s h, hb]
  · intro h
    rw [getStatusSensors_of_not_reported R s h, hb]
  · intro h
    rw [getStatusPD_of_not_reported R s h, hb]
  · intro h
    rw [getStatusLD_of_not_reported R s h, hb]
  · intro h
    rw [getStatusFan_of_not_reported R s h, hb]
  · intro v s1 h
    exact status_getter_lt_four _ 6 R s _ v s1 h
  · intro v s1 h
    exact status_getter_lt_four _ 4 R s _ v s1 h
  · intro v s1 h
    exact status_getter_lt_four _ 2 R s _ v s1 h
  · intro v s1 h
    exact status_getter_lt_four _ 0 R s _ v s1 h
  · intro hbyte h1 h2 h3 h4
    rw [getStatusSensors_of_not_reported R s h1, getStatusPD_of_not_reported R s h2,
      getStatusLD_of_not_reported R s h3, getStatusFan_of_not_reported R s h4, hb, hbyte]
    decide

/-- C7 at a concrete input: the state register at offset 24 holds 0b10110001
and no flag is set. -/
theorem state_getters_slice_state_byte_witness :
    (getStatusSensors packedMap
        (sensorWith nackWire (bufOf (List.replicate 24 0 ++ [0b10110001])) false)).map
      Prod.fst = some 2 ∧
    (getStatusPD packedMap
        (sensorWith nackWire (bufOf (List.replicate 24 0 ++ [0b10110001])) false)).map
      Prod.fst = some 3 ∧
    (getStatusLD packedMap
        (sensorWith nackWire (bufOf (List.replicate 24 0 ++ [0b10110001])) false)).map
      Prod.fst = some 0 ∧
    (getStatusFan packedMap
        (sensorWith nackWire (bufOf (List.replicate 24 0 ++ [0b10110001])) false)).map
      Prod.fst = some 1 :=
  (state_getters_slice_state_byte packedMap
    (sensorWith nackWire (bufOf (List.replicate 24 0 ++ [0b10110001])) false)
    (by decide)).2.2.2.2.2.2.2.2.2 (by decide) rfl rfl rfl rfl

/-! ## The buffer after `readMeasurement` -/

theorem read_buf_after_ack (s : SFE_PARTICLE_SENSOR) (i : Fin 40) :
    (clearReported (drained (afterRequest s))).read_buf i =
      if i.val < (delivered s).length then (delivered s).getD i.val 0 % 256 else 0 := by
  show (if 0 ≤ i.val ∧ i.val < 0 + (delivered s).length then
      (delivered s).getD (i.val - 0) 0 % 256 else 0) = _
  simp only [Nat.zero_le, true_and, Nat.zero_add, Nat.sub_zero]

/-- C8: when the register write is acknowledged and the bus then delivers the
bytes `d[0], ..., d[n-1]` with `n ≤ 40`, `readMeasurement` returns `true`,
`read_buf[i] = d[i]` for `i < n` and `read_buf[i] = 0` for `n ≤ i < 40`; the
buffer it leaves is the same whatever the buffer held before the call. -/
theorem readMeasurement_replaces_buffer (s : SFE_PARTICLE_SENSOR)
    (hack : writeStatus s = 0) (hlen : (delivered s).length ≤ 40)
    (hbytes : ∀ b ∈ delivered s, b < 256) :
    ∃ s1, readMeasurement s = some (true, s1) ∧
      (∀ (i : Fin 40) (h : i.val < (delivered s).length),
        s1.read_buf i = (delivered s).get ⟨i.val, h⟩) ∧
      (∀ i : Fin 40, (delivered s).length ≤ i.val → s1.read_buf i = 0) ∧
      ∀ buf0 : Fin 40 → Nat,
        (readMeasurement { s with read_buf := buf0 }).map (fun r => (r.1, r.2.read_buf)) =
          some (true, s1.read_buf) := by
  refine ⟨_, readMeasurement_ack s hack hlen, ?_, ?_, ?_⟩
  · intro i h
    rw [read_buf_after_ack, if_pos h, List.getD_eq_getElem _ _ h]
    exact Nat.mod_eq_of_lt (hbytes _ (List.getElem_mem h))
  · intro i h
    rw [read_buf_after_ack, if_neg (by omega)]
  · intro buf0
    rw [readMeasurement_ack { s with read_buf := buf0 } hack hlen]
    rfl

/-- C8 at a concrete input: a buffer full of 9s is replaced by E8 03 00 00
followed by zeros. -/
theorem readMeasurement_replaces_buffer_witness :
    ∃ s1,
      readMeasurement (sensorWith (ackWire [0xE8, 3, 0, 0]) (fun _ => 9) true) = some (true, s1) ∧
      (∀ (i : Fin 40)
          (h : i.val <
            (delivered (sensorWith (ackWire [0xE8, 3, 0, 0]) (fun _ => 9) true)).length),
        s1.read_buf i =
          (delivered (sensorWith (ackWire [0xE8, 3, 0, 0]) (fun _ => 9) true)).get ⟨i.val, h⟩) ∧
      (∀ i : Fin 40,
        (delivered (sensorWith (ackWire [0xE8, 3, 0, 0]) (fun _ => 9) true)).length ≤ i.val →
          s1.read_buf i = 0) ∧
      ∀ buf0 : Fin 40 → Nat,
        (readMeasurement
            { sensorWith (ackWire [0xE8, 3, 0, 0]) (fun _ => 9) true with read_buf := buf0 }).map
          (fun r => (r.1, r.2.read_buf)) = some (true, s1.read_buf) :=
  readMeasurement_replaces_buffer (sensorWith (ackWire [0xE8, 3, 0, 0]) (fun _ => 9) true)
    (by decide) (by decide) (by decide)

/-- C9: when the register write is not acknowledged, `readMeasurement` returns
`false` and every one of the 40 bytes of `read_buf` is zero afterwards. -/
theorem readMeasurement_nack_zeroes_buffer (s : SFE_PARTICLE_SENSOR)
    (h : writeStatus s ≠ 0) :
    ∃ s1, readMeasurement s = some (false, s1) ∧ ∀ i : Fin 40, s1.read_buf i = 0 :=
  ⟨afterNack s, readMeasurement_nack s h, fun _ => rfl⟩

/-- C9 at a concrete input: a buffer that starts with E8 03 on a bus that does
not acknowledge. -/
theorem readMeasurement_nack_zeroes_buffer_witness :
    ∃ s1, readMeasurement (sensorWith nackWire (bufOf [0xE8, 3]) false) = some (false, s1) ∧
      ∀ i : Fin 40, s1.read_buf i = 0 :=
  readMeasurement_nack_zeroes_buffer (sensorWith nackWire (bufOf [0xE8, 3]) false) (by decide)

/-- C10, refuted as stated: a buffer whose first byte is E8 has first byte 0
after a `readMeasurement` whose register write is not acknowledged. -/
theorem failed_refresh_loses_snapshot :
    (sensorWith nackWire (bufOf [0xE8, 3]) false).read_buf 0 = 0xE8 ∧
    (readMeasurement (sensorWith nackWire (bufOf [0xE8, 3]) false)).map
        (fun r => (r.1, r.2.read_buf 0)) = some (false, 0) := by
  decide

/-- C10, amended: when the register write is not acknowledged,
`readMeasurement` returns `false` and leaves every byte of `read_buf` zero, so
`read_buf` equals its contents before the call exactly when those were all
zero. -/
theorem failed_refresh_keeps_only_zero_buffer (s : SFE_PARTICLE_SENSOR)
    (h : writeStatus s ≠ 0) :
    ∃ s1, readMeasurement s = some (false, s1) ∧
      (∀ i : Fin 40, s1.read_buf i = 0) ∧
      (s1.read_buf = s.read_buf ↔ ∀ i : Fin 40, s.read_buf i = 0) := by
  refine ⟨afterNack s, readMeasurement_nack s h, fun _ => rfl, ?_⟩
  constructor
  · intro heq i
    rw [← heq]
    rfl
  · intro hz
    funext i
    rw [hz i]
    rfl

/-- C10, amended, at a concrete input: an all-zero buffer on a bus that does
not acknowledge. -/
theorem failed_refresh_keeps_only_zero_buffer_witness :
    ∃ s1, readMeasurement (sensorWith nackWire (bufOf []) true) = some (false, s1) ∧
      (∀ i : Fin 40, s1.read_buf i = 0) ∧
      (s1.read_buf = (sensorWith nackWire (bufOf []) true).read_buf ↔
        ∀ i : Fin 40, (sensorWith nackWire (bufOf []) true).read_buf i = 0) :=
  failed_refresh_keeps_only_zero_buffer (sensorWith nackWire (bufOf []) true) (by decide)

/-! ## Failure of the refresh -/

/-- C11, evaluated at the failing input: on a bus that acknowledges the
register write and then delivers no byte, `readMeasurement` returns `true`,
having stored nothing (`offset` is 0) and having cleared the flags. -/
theorem read_without_data_reports_success :
    (readMeasurement (sensorWith (ackWire []) (bufOf []) true)).map
        (fun r => (r.1, r.2.offset, Field.all.map fun f => f.reported r.2)) =
      some (true, 0, List.replicate 14 false) := by
  decide

theorem bufAt_afterNack (s : SFE_PARTICLE_SENSOR) (i : Nat) : bufAt (afterNack s) i = 0 := by
  unfold bufAt
  split <;> rfl

theorem getPM_afterNack (s : SFE_PARTICLE_SENSOR) (r : Nat) : getPM (afterNack s) r = 0 := by
  have h : readRegister32 (afterNack s) r = 0 := by
    simp [readRegister32, bufAt_afterNack]
  unfold getPM
  rw [h, toRat_quotientAsFloat_zero]

theorem decode_afterNack (R : RegisterMap) (f : Field) (s : SFE_PARTICLE_SENSOR) :
    f.decode R (afterNack s) = f.zero := by
  cases f <;>
    simp [Field.decode, Field.zero, getPM_afterNack, readRegister16, readRegister8,
      bufAt_afterNack]

/-- C12: a getter whose own flag is set on entry, on a bus that does not
acknowledge the register write of the refresh, returns; the value is 0 (0.0
for a mass density); exactly one `readMeasurement` was attempted; the flag is
set on return; and the next call of the same getter is again a
`readMeasurement` followed by the decode, one more attempt whenever it
returns. -/
theorem getter_after_nack_returns_zero (R : RegisterMap) (f : Field)
    (s : SFE_PARTICLE_SENSOR) (hf : f.reported s = true) (hn : writeStatus s ≠ 0) :
    ∃ s1, f.get R s = some (f.zero, s1) ∧ f.reported s1 = true ∧ refreshes s s1 = 1 ∧
      f.get R s1 = (readMeasurement s1).map (fun r => (f.decode R r.2, f.mark r.2)) ∧
      ∀ v2 s2, f.get R s1 = some (v2, s2) → refreshes s1 s2 = 1 := by
  have hget : f.get R s = some (f.zero, f.mark (afterNack s)) := by
    rw [Field.get_of_reported R f s hf, readMeasurement_nack s hn]
    simp only [Option.map_some', decode_afterNack]
  have hrep : f.reported (f.mark (afterNack s)) = true := Field.reported_mark_self f _
  refine ⟨f.mark (afterNack s), hget, hrep, ?_, Field.get_of_reported R f _ hrep, ?_⟩
  · rw [Field.refreshes_get R f s _ _ hget, hf]
    simp
  · intro v2 s2 h2
    rw [Field.refreshes_get R f _ s2 v2 h2, hrep]
    simp

/-- C12 at a concrete input: `getPM2_5` with its flag set, a buffer that holds
the bytes 1 to 8, on a bus that does not acknowledge. -/
theorem getter_after_nack_returns_zero_witness :
    ∃ s1,
      Field.PM2_5.get packedMap (sensorWith nackWire (bufOf [1, 2, 3, 4, 5, 6, 7, 8]) true) =
        some (Field.PM2_5.zero, s1) ∧
      Field.PM2_5.reported s1 = true ∧
      refreshes (sensorWith nackWire (bufOf [1, 2, 3, 4, 5, 6, 7, 8]) true) s1 = 1 ∧
      Field.PM2_5.get packedMap s1 =
        (readMeasurement s1).map
          (fun r => (Field.PM2_5.decode packedMap r.2, Field.PM2_5.mark r.2)) ∧
      ∀ v2 s2, Field.PM2_5.get packedMap s1 = some (v2, s2) → refreshes s1 s2 = 1 :=
  getter_after_nack_returns_zero packedMap Field.PM2_5
    (sensorWith nackWire (bufOf [1, 2, 3, 4, 5, 6, 7, 8]) true) rfl (by decide)

/-! ## What a getter leaves alone -/

theorem other_flag_stays_clear (R : RegisterMap) (f g : Field) (s s1 : SFE_PARTICLE_SENSOR)
    (v : Reading) (hne : g ≠ f) (h : f.get R s = some (v, s1))
    (hg : g.reported s = false) : g.reported s1 = false := by
  cases hf : f.reported s with
  | false =>
    rw [Field.get_of_not_reported R f s hf] at h
    simp only [Option.some.injEq, Prod.mk.injEq] at h
    rw [← h.2, Field.reported_mark_of_ne f g s hne]
    exact hg
  | true =>
    rw [Field.get_of_reported R f s hf] at h
    cases hr : readMeasurement s with
    | none => rw [hr] at h; exact absurd h (by simp)
    | some r =>
      obtain ⟨b, s2⟩ := r
      rw [hr] at h
      simp only [Option.map_some', Option.some.injEq, Prod.mk.injEq] at h
      rw [← h.2, Field.reported_mark_of_ne f g s2 hne]
      by_cases hs : writeStatus s = 0
      · exact readMeasurement_clears_flags_aux s hs b s2 hr g
      · rw [readMeasurement_nack s hs] at hr
        simp only [Option.some.injEq, Prod.mk.injEq] at hr
        rw [← hr.2, reported_afterNack]
        exact hg

theorem get_of_getState (R : RegisterMap) (s s1 : SFE_PARTICLE_SENSOR) (v : Nat)
    (h : getState R s = some (v, s1)) : Field.State.get R s = some (Reading.byte v, s1) := by
  simp [Field.get, h]

theorem get_of_getStatusSensors (R : RegisterMap) (s s1 : SFE_PARTICLE_SENSOR) (v : Nat)
    (h : getStatusSensors R s = some (v, s1)) :
    Field.StatusSensors.get R s = some (Reading.byte v, s1) := by
  simp [Field.get, h]

theorem get_of_getStatusPD (R : RegisterMap) (s s1 : SFE_PARTICLE_SENSOR) (v : Nat)
    (h : getStatusPD R s = some (v, s1)) :
    Field.StatusPD.get R s = some (Reading.byte v, s1) := by
  simp [Field.get, h]

theorem get_of_getStatusLD (R : RegisterMap) (s s1 : SFE_PARTICLE_SENSOR) (v : Nat)
    (h : getStatusLD R s = some (v, s1)) :
    Field.StatusLD.get R s = some (Reading.byte v, s1) := by
  simp [Field.get, h]

theorem get_of_getStatusFan (R : RegisterMap) (s s1 : SFE_PARTICLE_SENSOR) (v : Nat)
    (h : getStatusFan R s = some (v, s1)) :
    Field.StatusFan.get R s = some (Reading.byte v, s1) := by
  simp [Field.get, h]

/-- C13: for every getter F, in every state and for every answer of the bus:
a flag of another reading that is clear before the call is clear after it;
with F's own flag clear on entry the call returns and leaves the port (so no
bus call is made), the buffer and the thirteen other flags as they were. In
particular `getState` sets the flag of none of the four state sub-fields, and
none of their getters sets the flag of `getState`. -/
theorem getter_leaves_other_flags (R : RegisterMap) (f : Field) (s : SFE_PARTICLE_SENSOR) :
    (∀ g v s1, g ≠ f → f.get R s = some (v, s1) → g.reported s = false →
      g.reported s1 = false) ∧
    (f.reported s = false →
      ∃ v s1, f.get R s = some (v, s1) ∧ s1._i2cPort = s._i2cPort ∧
        s1.read_buf = s.read_buf ∧ ∀ g, g ≠ f → g.reported s1 = g.reported s) ∧
    (∀ v s1, getState R s = some (v, s1) →
      (s.StSenHasBeenReported = false → s1.StSenHasBeenReported = false) ∧
      (s.StPdHasBeenReported = false → s1.StPdHasBeenReported = false) ∧
      (s.StLdHasBeenReported = false → s1.StLdHasBeenReported = false) ∧
      (s.StFanHasBeenReported = false → s1.StFanHasBeenReported = false)) ∧
    (∀ v s1, s.StateHasBeenReported = false →
      (getStatusSensors R s = some (v, s1) → s1.StateHasBeenReported = false) ∧
      (getStatusPD R s = some (v, s1) → s1.StateHasBeenReported = false) ∧
      (getStatusLD R s = some (v, s1) → s1.StateHasBeenReported = false) ∧
      (getStatusFan R s = some (v, s1) → s1.StateHasBeenReported = false)) := by
  refine ⟨?_, ?_, ?_, ?_⟩
  · intro g v s1 hne h hg
    exact other_flag_stays_clear R f g s s1 v hne h hg
  · intro hf
    exact ⟨_, _, Field.get_of_not_reported R f s hf, Field.i2cPort_mark f s,
      Field.read_buf_mark f s, fun g hne => Field.reported_mark_of_ne f g s hne⟩
  · intro v s1 h
    have hget := get_of_getState R s s1 v h
    exact ⟨other_flag_stays_clear R Field.State Field.StatusSensors s s1 _ (by decide) hget,
      other_flag_stays_clear R Field.State Field.StatusPD s s1 _ (by decide) hget,
      other_flag_stays_clear R Field.State Field.StatusLD s s1 _ (by decide) hget,
      other_flag_stays_clear R Field.State Field.StatusFan s s1 _ (by decide) hget⟩
  · intro v s1 hst
    exact ⟨fun h => other_flag_stays_clear R Field.StatusSensors Field.State s s1 _ (by decide)
        (get_of_getStatusSensors R s s1 v h) hst,
      fun h => other_flag_stays_clear R Field.StatusPD Field.State s s1 _ (by decide)
        (get_of_getStatusPD R s s1 v h) hst,
      fun h => other_flag_stays_clear R Field.StatusLD Field.State s s1 _ (by decide)
        (get_of_getStatusLD R s s1 v h) hst,
      fun h => other_flag_stays_clear R Field.StatusFan Field.State s s1 _ (by decide)
        (get_of_getStatusFan R s s1 v h) hst⟩

/-! ## Connectivity check and register probe -/

theorem reported_with_port (f : Field) (s : SFE_PARTICLE_SENSOR) (w : TwoWire) :
    f.reported { s with _i2cPort := w } = f.reported s := by
  cases f <;> rfl

/-- C14: `isConnected` returns `true` exactly when the bus answers the probe
with status 0 and `false` exactly when the status is not 0; the probe is a
`beginTransmission` followed at once by `endTransmission`; the buffer and the
fourteen flags are unchanged; and `begin` returns what `isConnected` returns
on the port it was given. -/
theorem isConnected_reports_probe_status (s : SFE_PARTICLE_SENSOR) (wirePort : TwoWire) :
    ((isConnected s).1 = true ↔ probeStatus s = 0) ∧
    ((isConnected s).1 = false ↔ probeStatus s ≠ 0) ∧
    (isConnected s).2._i2cPort.log =
      WireCall.endTransmission true :: WireCall.beginTransmission s._deviceAddress ::
        s._i2cPort.log ∧
    (isConnected s).2.read_buf = s.read_buf ∧
    (∀ f : Field, f.reported (isConnected s).2 = f.reported s) ∧
    (begin s wirePort).1 = (isConnected { s with _i2cPort := wirePort }).1 ∧
    ((begin s wirePort).1 = true ↔
      wirePort.status (WireCall.beginTransmission s._deviceAddress :: wirePort.log) = 0) := by
  have key : ∀ s0 : SFE_PARTICLE_SENSOR,
      ((isConnected s0).1 = true ↔ probeStatus s0 = 0) ∧
      ((isConnected s0).1 = false ↔ probeStatus s0 ≠ 0) ∧
      (isConnected s0).2._i2cPort.log =
        WireCall.endTransmission true :: WireCall.beginTransmission s0._deviceAddress ::
          s0._i2cPort.log ∧
      (isConnected s0).2.read_buf = s0.read_buf ∧
      (∀ f : Field, f.reported (isConnected s0).2 = f.reported s0) := by
    intro s0
    by_cases hp : probeStatus s0 = 0
    · have hc : isConnected s0 = (true, { s0 with
          _i2cPort := ((s0._i2cPort.beginTransmission s0._deviceAddress).endTransmission true).2 }) := by
        unfold probeStatus at hp
        unfold isConnected
        simp only [ne_eq, hp, not_true_eq_false, if_false]
      rw [hc]
      exact ⟨by simp [hp], by simp [hp], rfl, rfl, fun f => reported_with_port f s0 _⟩
    · have hc : isConnected s0 = (false, { s0 with
          _i2cPort := ((s0._i2cPort.beginTransmission s0._deviceAddress).endTransmission true).2 }) := by
        unfold probeStatus at hp
        unfold isConnected
        simp only [ne_eq, hp, not_false_eq_true, if_true]
      rw [hc]
      exact ⟨by simp [hp], by simp [hp], rfl, rfl, fun f => reported_with_port f s0 _⟩
  obtain ⟨h1, h2, h3, h4, h5⟩ := key s
  refine ⟨h1, h2, h3, h4, h5, rfl, ?_⟩
  exact (key { s with _i2cPort := wirePort }).1

/-- C15: `TestReg(addr, r)` returns `true` exactly when the address write is
acknowledged and at least one byte is available after the read request; then
`*r` is the first byte read; in every other case it returns `false` and `*r`
keeps its value; the buffer and the fourteen flags are unchanged in all
cases. -/
theorem TestReg_reports_ack_and_data (s : SFE_PARTICLE_SENSOR) (addr r : Nat) :
    ((TestReg s addr r).1 = true ↔ testStatus s addr = 0 ∧ testData s addr ≠ []) ∧
    (∀ b rest, testStatus s addr = 0 → testData s addr = b :: rest →
      (TestReg s addr r).1 = true ∧ (TestReg s addr r).2.1 = b % 256 ∧
      (b < 256 → (TestReg s addr r).2.1 = b)) ∧
    ((TestReg s addr r).1 = false → (TestReg s addr r).2.1 = r) ∧
    (TestReg s addr r).2.2.read_buf = s.read_buf ∧
    (∀ f : Field, f.reported (TestReg s addr r).2.2 = f.reported s) := by
  by_cases hs : testStatus s addr = 0
  · cases hd : testData s addr with
    | nil =>
      have ht : TestReg s addr r = (false, r, { s with
          _i2cPort := (((s._i2cPort.beginTransmission s._deviceAddress).write
            addr).endTransmission false).2.requestFrom s._deviceAddress 1 }) := by
        unfold testStatus at hs
        unfold testData at hd
        unfold TestReg
        simp only [ne_eq, hs, not_true_eq_false, if_false, TwoWire.available, hd,
          List.length_nil]
      rw [ht]
      refine ⟨by simp, ?_, fun _ => rfl, rfl, fun f => reported_with_port f s _⟩
      intro b rest _ h
      exact absurd h (by simp)
    | cons b0 rest0 =>
      have ht : TestReg s addr r = (true, b0 % 256, { s with
          _i2cPort := ((((s._i2cPort.beginTransmission s._deviceAddress).write
            addr).endTransmission false).2.requestFrom s._deviceAddress 1).read.2 }) := by
        unfold testStatus at hs
        unfold testData at hd
        unfold TestReg
        simp only [ne_eq, hs, not_true_eq_false, if_false, TwoWire.available, hd,
          List.length_cons, Nat.add_one_ne_zero, not_false_eq_true, if_true, TwoWire.read,
          toUint8_natCast]
      rw [ht]
      refine ⟨by simp [hs], ?_, fun h => absurd h (by simp), rfl,
        fun f => reported_with_port f s _⟩
      intro b rest _ h
      obtain ⟨hb, _⟩ := List.cons.inj h
      subst hb
      exact ⟨rfl, rfl, fun hlt => Nat.mod_eq_of_lt hlt⟩
  · have ht : TestReg s addr r = (false, r, { s with
        _i2cPort := (((s._i2cPort.beginTransmission s._deviceAddress).write
          addr).endTransmission false).2 }) := by
      unfold testStatus at hs
      unfold TestReg
      simp only [ne_eq, hs, not_false_eq_true, if_true]
    rw [ht]
    refine ⟨by simp [hs], ?_, fun _ => rfl, rfl, fun f => reported_with_port f s _⟩
    intro b rest h _
    exact absurd h hs

/-! ## The stores of the receive loop -/

theorem storeIndices_eq_range (fuel : Nat) : ∀ s : SFE_PARTICLE_SENSOR,
    s._i2cPort.rx.length ≤ fuel →
    storeIndices fuel s = List.range' s.offset s._i2cPort.rx.length := by
  induction fuel with
  | zero =>
    intro s hf
    have hrx : s._i2cPort.rx = [] := List.eq_nil_of_length_eq_zero (Nat.le_zero.mp hf)
    simp [storeIndices, hrx]
  | succ n ih =>
    intro s hf
    obtain ⟨⟨st, inc, rx, lg⟩, da, buf, off⟩ := s
    dsimp only at hf
    cases rx with
    | nil => simp [storeIndices, TwoWire.available]
    | cons b rest =>
      simp only [List.length_cons] at hf
      simp only [storeIndices, TwoWire.available, List.length_cons, ne_eq, Nat.add_one_ne_zero,
        not_false_eq_true, if_true, TwoWire.read]
      rw [ih _ (by dsimp only; omega)]
      rfl

theorem reads_drained (s : SFE_PARTICLE_SENSOR) :
    (drained s)._i2cPort.reads = s._i2cPort.reads + s._i2cPort.rx.length := by
  simp [drained, TwoWire.reads, List.count_append, List.count_replicate_self, Nat.add_comm]

theorem reads_afterRequest (s : SFE_PARTICLE_SENSOR) :
    (afterRequest s)._i2cPort.reads = s._i2cPort.reads := by
  simp [afterRequest, addressed, TwoWire.endTransmission, TwoWire.write,
    TwoWire.beginTransmission, TwoWire.requestFrom, TwoWire.reads]

/-- C16: in a `readMeasurement` whose register write is acknowledged, the loop
stores at the indices 0, 1, ..., n-1, where n is the number of bytes the bus
makes available. With n ≤ 40 every index is below 40, the call returns, it has
read n bytes and stored n bytes (`offset` is n), no byte is waiting at the end,
and more fuel changes nothing; with n > 40 a store at index 40 is made and the
call has no defined result. -/
theorem stores_stay_inside_buffer (s : SFE_PARTICLE_SENSOR) (hack : writeStatus s = 0) :
    storeIndices (afterRequest s)._i2cPort.available (afterRequest s) =
      List.range (delivered s).length ∧
    ((delivered s).length ≤ 40 →
      (∀ i ∈ storeIndices (afterRequest s)._i2cPort.available (afterRequest s), i < 40) ∧
      (∃ s1, readMeasurement s = some (true, s1) ∧ s1.offset = (delivered s).length ∧
        s1._i2cPort.available = 0 ∧
        s1._i2cPort.reads = s._i2cPort.reads + (delivered s).length) ∧
      ∀ fuel, (delivered s).length ≤ fuel →
        receive fuel (afterRequest s) = receive (delivered s).length (afterRequest s)) ∧
    (40 < (delivered s).length →
      40 ∈ storeIndices (afterRequest s)._i2cPort.available (afterRequest s) ∧
      readMeasurement s = none) := by
  have hidx : storeIndices (afterRequest s)._i2cPort.available (afterRequest s) =
      List.range (delivered s).length := by
    show storeIndices (afterRequest s)._i2cPort.rx.length (afterRequest s) = _
    rw [storeIndices_eq_range _ (afterRequest s) (le_refl _), List.range_eq_range']
    rfl
  refine ⟨hidx, ?_, ?_⟩
  · intro hlen
    refine ⟨?_, ?_, ?_⟩
    · intro i hi
      rw [hidx] at hi
      have := List.mem_range.mp hi
      omega
    · refine ⟨_, readMeasurement_ack s hack hlen, ?_, rfl, ?_⟩
      · show 0 + (delivered s).length = _
        omega
      · show (drained (afterRequest s))._i2cPort.reads = _
        rw [reads_drained, reads_afterRequest]
        rfl
    · intro fuel hfuel
      have hb : (afterRequest s).offset + (afterRequest s)._i2cPort.rx.length ≤ 40 := by
        show 0 + (delivered s).length ≤ 40
        omega
      rw [receive_eq_drained fuel (afterRequest s) hfuel hb,
        receive_eq_drained (delivered s).length (afterRequest s) (le_refl _) hb]
  · intro hlen
    refine ⟨?_, readMeasurement_fault s hack hlen⟩
    rw [hidx]
    exact List.mem_range.mpr hlen

/-- C16 at a concrete input: the bus acknowledges and delivers the four bytes
E8 03 00 00. -/
theorem stores_stay_inside_buffer_witness :
    storeIndices (afterRequest (sensorWith (ackWire [0xE8, 3, 0, 0]) (bufOf []) true))._i2cPort.available
        (afterRequest (sensorWith (ackWire [0xE8, 3, 0, 0]) (bufOf []) true)) =
      [0, 1, 2, 3] :=
  (stores_stay_inside_buffer (sensorWith (ackWire [0xE8, 3, 0, 0]) (bufOf []) true)
    (by decide)).1.trans (by decide)

/-! ## Round trips -/

theorem four_bytes_injective (a b c d a2 b2 c2 d2 : Nat) (ha : a < 256) (hb : b < 256)
    (hc : c < 256) (ha2 : a2 < 256) (hb2 : b2 < 256) (hc2 : c2 < 256)
    (h : a + 2 ^ 8 * b + 2 ^ 16 * c + 2 ^ 24 * d = a2 + 2 ^ 8 * b2 + 2 ^ 16 * c2 + 2 ^ 24 * d2) :
    a = a2 ∧ b = b2 ∧ c = c2 ∧ d = d2 := by
  omega

/-- C17: with the four bytes at `a .. a+3` and the two bytes at `c`, `c+1`
inside the buffer: a buffer that holds the little-endian bytes of `v < 2^32`
at `a .. a+3` makes `readRegister32(a)` return `v`, and one that holds the
little-endian bytes of `v < 2^16` at `c`, `c+1` makes `readRegister16(c)`
return `v`; and on buffers of bytes each decoder returns the same value on
two buffers exactly when they agree on the bytes of the field. -/
theorem decoders_round_trip (s s2 : SFE_PARTICLE_SENSOR) (a c : Nat) (ha : a + 3 < 40)
    (hc : c + 1 < 40) :
    (∀ v, v < 2 ^ 32 → s.read_buf ⟨a, by omega⟩ = v % 256 →
      s.read_buf ⟨a + 1, by omega⟩ = (v / 2 ^ 8) % 256 →
      s.read_buf ⟨a + 2, by omega⟩ = (v / 2 ^ 16) % 256 →
      s.read_buf ⟨a + 3, ha⟩ = v / 2 ^ 24 → readRegister32 s a = v) ∧
    (∀ v, v < 2 ^ 16 → s.read_buf ⟨c, by omega⟩ = v % 256 →
      s.read_buf ⟨c + 1, hc⟩ = v / 256 → readRegister16 s c = v) ∧
    (BytesInRange s → BytesInRange s2 →
      (readRegister32 s a = readRegister32 s2 a ↔
        s.read_buf ⟨a, by omega⟩ = s2.read_buf ⟨a, by omega⟩ ∧
        s.read_buf ⟨a + 1, by omega⟩ = s2.read_buf ⟨a + 1, by omega⟩ ∧
        s.read_buf ⟨a + 2, by omega⟩ = s2.read_buf ⟨a + 2, by omega⟩ ∧
        s.read_buf ⟨a + 3, ha⟩ = s2.read_buf ⟨a + 3, ha⟩)) ∧
    (BytesInRange s → BytesInRange s2 →
      (readRegister16 s c = readRegister16 s2 c ↔
        s.read_buf ⟨c, by omega⟩ = s2.read_buf ⟨c, by omega⟩ ∧
        s.read_buf ⟨c + 1, hc⟩ = s2.read_buf ⟨c + 1, hc⟩)) := by
  have e32 : ∀ t : SFE_PARTICLE_SENSOR, readRegister32 t a =
      (((t.read_buf ⟨a + 3, ha⟩ % 2 ^ 32) <<< 24) % 2 ^ 32) |||
      (((t.read_buf ⟨a + 2, by omega⟩ % 2 ^ 32) <<< 16) % 2 ^ 32) |||
      (((t.read_buf ⟨a + 1, by omega⟩ % 2 ^ 32) <<< 8) % 2 ^ 32) |||
      (((t.read_buf ⟨a, by omega⟩ % 2 ^ 32) <<< 0) % 2 ^ 32) := by
    intro t
    unfold readRegister32
    rw [bufAt_of_lt t a (by omega), bufAt_of_lt t (a + 1) (by omega),
      bufAt_of_lt t (a + 2) (by omega), bufAt_of_lt t (a + 3) ha]
  have e16 : ∀ t : SFE_PARTICLE_SENSOR, readRegister16 t c =
      (((t.read_buf ⟨c + 1, hc⟩ % 2 ^ 16) <<< 8) ||| t.read_buf ⟨c, by omega⟩) % 2 ^ 16 := by
    intro t
    unfold readRegister16
    rw [bufAt_of_lt t c (by omega), bufAt_of_lt t (c + 1) hc]
  refine ⟨?_, ?_, ?_, ?_⟩
  · intro v hv h0 h1 h2 h3
    rw [e32 s, h0, h1, h2, h3,
      or_of_four_bytes _ _ _ _ (by omega) (by omega) (by omega) (by omega)]
    omega
  · intro v hv h0 h1
    rw [e16 s, h0, h1, or_of_two_bytes _ _ (by omega) (by omega)]
    omega
  · intro hs hs2
    rw [e32 s, e32 s2, or_of_four_bytes _ _ _ _ (hs _) (hs _) (hs _) (hs _),
      or_of_four_bytes _ _ _ _ (hs2 _) (hs2 _) (hs2 _) (hs2 _)]
    constructor
    · intro h
      exact four_bytes_injective _ _ _ _ _ _ _ _ (hs _) (hs _) (hs _) (hs2 _) (hs2 _) (hs2 _) h
    · rintro ⟨h0, h1, h2, h3⟩
      rw [h0, h1, h2, h3]
  · intro hs hs2
    rw [e16 s, e16 s2, or_of_two_bytes _ _ (hs _) (hs _), or_of_two_bytes _ _ (hs2 _) (hs2 _)]
    constructor
    · intro h
      have b0 := hs ⟨c, by omega⟩
      have b1 := hs2 ⟨c, by omega⟩
      constructor <;> omega
    · rintro ⟨h0, h1⟩
      rw [h0, h1]

/-- C17 at a concrete input: the bytes 78 56 34 12 at offsets 0 to 3 decode to
0x12345678, and the bytes 78 56 at offsets 0 and 1 decode to 0x5678. -/
theorem decoders_round_trip_witness :
    readRegister32 (sensorWith nackWire (bufOf [0x78, 0x56, 0x34, 0x12]) false) 0 = 0x12345678 ∧
    readRegister16 (sensorWith nackWire (bufOf [0x78, 0x56, 0x34, 0x12]) false) 0 = 0x5678 :=
  ⟨(decoders_round_trip (sensorWith nackWire (bufOf [0x78, 0x56, 0x34, 0x12]) false)
      (sensorWith nackWire (bufOf []) false) 0 0 (by decide) (by decide)).1 0x12345678
      (by decide) (by decide) (by decide) (by decide) (by decide),
    (decoders_round_trip (sensorWith nackWire (bufOf [0x78, 0x56, 0x34, 0x12]) false)
      (sensorWith nackWire (bufOf []) false) 0 0 (by decide) (by decide)).2.1 0x5678
      (by decide) (by decide) (by decide)⟩

theorem two_bit_groups_sum (b : Nat) (hb : b < 256) :
    64 * ((b >>> 6) &&& 3) + 16 * ((b >>> 4) &&& 3) + 4 * ((b >>> 2) &&& 3) + (b &&& 3) = b := by
  have h3 : ∀ x : Nat, x &&& 3 = x % 4 := fun x => Nat.and_pow_two_sub_one_eq_mod x 2
  rw [h3, h3, h3, h3, Nat.shiftRight_eq_div_pow, Nat.shiftRight_eq_div_pow,
    Nat.shiftRight_eq_div_pow]
  omega

/-- C18: with the state register inside the buffer and a byte `b` there, the
values `sensors`, `PD`, `LD`, `fan` that the four sub-field getters decode
satisfy `64*sensors + 16*PD + 4*LD + fan = b` and each is below 4; with the
four flags clear, the four getters called one after the other return exactly
these values, from the one unchanged buffer. -/
theorem status_groups_recombine (R : RegisterMap) (s : SFE_PARTICLE_SENSOR)
    (hR : R.SNGCJA5_STATE < 40) (hb : s.read_buf ⟨R.SNGCJA5_STATE, hR⟩ < 256) :
    ∃ sen pd ld fan,
      Field.StatusSensors.decode R s = Reading.byte sen ∧
      Field.StatusPD.decode R s = Reading.byte pd ∧
      Field.StatusLD.decode R s = Reading.byte ld ∧
      Field.StatusFan.decode R s = Reading.byte fan ∧
      64 * sen + 16 * pd + 4 * ld + fan = s.read_buf ⟨R.SNGCJA5_STATE, hR⟩ ∧
      sen < 4 ∧ pd < 4 ∧ ld < 4 ∧ fan < 4 ∧
      (s.StSenHasBeenReported = false → s.StPdHasBeenReported = false →
        s.StLdHasBeenReported = false → s.StFanHasBeenReported = false →
        ∃ s2,
          getAll R [Field.StatusSensors, Field.StatusPD, Field.StatusLD, Field.StatusFan] s =
            some ([Reading.byte sen, Reading.byte pd, Reading.byte ld, Reading.byte fan], s2) ∧
          s2.read_buf = s.read_buf ∧ s2._i2cPort = s._i2cPort) := by
  have hbuf := bufAt_of_lt s R.SNGCJA5_STATE hR
  have g6 := two_bit_group (bufAt s R.SNGCJA5_STATE) 6
  have g4 := two_bit_group (bufAt s R.SNGCJA5_STATE) 4
  have g2 := two_bit_group (bufAt s R.SNGCJA5_STATE) 2
  have g0 := two_bit_group (bufAt s R.SNGCJA5_STATE) 0
  have hsum := two_bit_groups_sum (bufAt s R.SNGCJA5_STATE) (by rw [hbuf]; exact hb)
  refine ⟨((bufAt s R.SNGCJA5_STATE >>> 6) &&& 0b11) % 2 ^ 8,
    ((bufAt s R.SNGCJA5_STATE >>> 4) &&& 0b11) % 2 ^ 8,
    ((bufAt s R.SNGCJA5_STATE >>> 2) &&& 0b11) % 2 ^ 8,
    ((bufAt s R.SNGCJA5_STATE >>> 0) &&& 0b11) % 2 ^ 8,
    rfl, rfl, rfl, rfl, ?_, g6.2, g4.2, g2.2, g0.2, ?_⟩
  · rw [g6.1, g4.1, g2.1, g0.1, Nat.shiftRight_zero, hsum, hbuf]
  · intro h1 h2 h3 h4
    have hclear : ∀ f ∈ [Field.StatusSensors, Field.StatusPD, Field.StatusLD, Field.StatusFan],
        f.reported s = false := by
      intro f hf
      simp only [List.mem_cons, List.mem_singleton, List.not_mem_nil, or_false] at hf
      rcases hf with rfl | rfl | rfl | rfl
      · exact h1
      · exact h2
      · exact h3
      · exact h4
    obtain ⟨s2, hrun, hport, hbuf2, _⟩ :=
      getAll_without_refresh R _ s hclear (by decide)
    exact ⟨s2, hrun, hbuf2, hport⟩

/-- C18 at a concrete input: the state register at offset 24 holds 0b10110001,
which is 64*2 + 16*3 + 4*0 + 1. -/
theorem status_groups_recombine_witness :
    ∃ sen pd ld fan,
      Field.StatusSensors.decode packedMap
          (sensorWith nackWire (bufOf (List.replicate 24 0 ++ [0b10110001])) false) =
        Reading.byte sen ∧
      Field.StatusPD.decode packedMap
          (sensorWith nackWire (bufOf (List.replicate 24 0 ++ [0b10110001])) false) =
        Reading.byte pd ∧
      Field.StatusLD.decode packedMap
          (sensorWith nackWire (bufOf (List.replicate 24 0 ++ [0b10110001])) false) =
        Reading.byte ld ∧
      Field.StatusFan.decode packedMap
          (sensorWith nackWire (bufOf (List.replicate 24 0 ++ [0b10110001])) false) =
        Reading.byte fan ∧
      64 * sen + 16 * pd + 4 * ld + fan = 0b10110001 ∧
      sen < 4 ∧ pd < 4 ∧ ld < 4 ∧ fan < 4 :=
  match status_groups_recombine packedMap
      (sensorWith nackWire (bufOf (List.replicate 24 0 ++ [0b10110001])) false)
      (by decide) (by decide) with
  | ⟨sen, pd, ld, fan, h1, h2, h3, h4, h5, h6, h7, h8, h9, _⟩ =>
    ⟨sen, pd, ld, fan, h1, h2, h3, h4, h5, h6, h7, h8, h9⟩

end SNGCJA5
